import Mathlib

set_option maxRecDepth 8000

/-!
Shallow embedding of the transaction/ledger core of `budgetbros-budget-api`
(`budget_api/services/transactions.py`, `budget_api/data_access/transactions.py`
and the transaction models), together with theorems settling the specification
claims about it.  Identifiers (UUIDs in the source) are modelled as `Nat`;
monetary amounts are `Int` minor units; Python `datetime` values are modelled
as a naive wall-clock integer plus an optional UTC offset.
-/

/-- Python `datetime`: `clock` is the naive wall-clock value (in an arbitrary
fixed unit), `offset` is the UTC offset reported by the attached `tzinfo`
(`none` models a naive datetime, or a `tzinfo` whose `utcoffset` returns
`None` — the source treats both alike). -/
structure PyDateTime where
  clock : Int
  offset : Option Int
deriving DecidableEq, Repr

/-- The absolute instant a timezone-aware datetime denotes (clock minus
offset); for a naive datetime this reads the clock as if the offset were 0. -/
def PyDateTime.instant (d : PyDateTime) : Int :=
  d.clock - d.offset.getD 0

/-- Embeds `_normalize_posted_at` (services/transactions.py:24-29): absent
value defaults to the current UTC instant; a naive value gets the UTC offset
attached without shifting the clock; an aware value is converted to UTC,
preserving the instant. -/
def normalizePostedAt (now : PyDateTime) (value : Option PyDateTime) : PyDateTime :=
  match value with
  | none => now
  | some d =>
    match d.offset with
    | none => { clock := d.clock, offset := some 0 }
    | some o => { clock := d.clock - o, offset := some 0 }

/-- `TransactionStatus` (models/transactions.py:11-15). -/
inductive TransactionStatus where
  | pending
  | posted
  | reconciled
  | void
deriving DecidableEq, Repr

/-- The string value of each status member. -/
def TransactionStatus.value : TransactionStatus → String
  | .pending => "pending"
  | .posted => "posted"
  | .reconciled => "reconciled"
  | .void => "void"

/-- Membership of a normalized string in `_ALLOWED_STATUSES` together with the
`TransactionStatus(normalized)` constructor call (services/transactions.py:21,41). -/
def statusOfString (s : String) : Option TransactionStatus :=
  if s = "pending" then some .pending
  else if s = "posted" then some .posted
  else if s = "reconciled" then some .reconciled
  else if s = "void" then some .void
  else none

/-- All request-rejection errors raised by the transactions service, one
constructor per distinct `HTTPException` detail string. -/
inductive Err where
  | transactionNotFound
  | noFieldsToUpdate
  | postedAtRequired
  | statusRequired
  | invalidStatus
  | importIdImmutable
  | linesCannotBeNull
  | noLineUpdatesProvided
  | duplicateLineId
  | lineNotFound
  | accountNotFound
  | categoryNotFound
  | payeeNotFound
  | amountMustBeNonZero
  | tagNotFound
  | invalidTransactionLines
  | transferAccountsMustDiffer
  | payeeNotAllowedForTransfers
deriving DecidableEq, Repr

/-- Embeds `_normalize_status` (services/transactions.py:32-41): `None`
defaults to `posted`; otherwise the input is stripped, lower-cased and must
be one of the four enum values. -/
def normalizeStatus (rawStatus : Option String) : Except Err TransactionStatus :=
  match rawStatus with
  | none => Except.ok .posted
  | some s =>
    match statusOfString s.trim.toLower with
    | some st => Except.ok st
    | none => Except.error .invalidStatus

/-- Helper for `dedupeTagIds`: the `seen` set accumulated so far. -/
def dedupeAux (seen : List Nat) : List Nat → List Nat
  | [] => []
  | t :: ts => if t ∈ seen then dedupeAux seen ts else t :: dedupeAux (t :: seen) ts

/-- Embeds `_dedupe_tag_ids` (services/transactions.py:44-52): drop repeated
ids, keeping the first occurrence of each. -/
def dedupeTagIds (tagIds : List Nat) : List Nat :=
  dedupeAux [] tagIds

/-- Deduplication by identity keeping the first occurrence of each element,
as the spec words it ("deduplicates by identity before validating",
first-occurrence order preserved); the canonical recursive form, to be
compared with the source's `_dedupe_tag_ids`. -/
def firstOccurrenceDedupe : List Nat → List Nat
  | [] => []
  | x :: xs => x :: firstOccurrenceDedupe (xs.filter (fun y => y ≠ x))
termination_by l => l.length
decreasing_by
  simp only [List.length_cons]
  exact Nat.lt_succ_of_le (List.length_filter_le _ _)

/-- Embeds the `LineSnapshot` dataclass (services/transactions.py:55-63). -/
structure LineSnapshot where
  id : Nat
  accountId : Nat
  categoryId : Option Nat
  payeeId : Option Nat
  amountMinor : Int
  memo : Option String
  tagIds : List Nat
deriving DecidableEq, Repr

/-- Embeds `_is_valid_transfer` (services/transactions.py:66-75).  The Python
set `{line.account_id for line in lines}` is modelled by `List.dedup`. -/
def isValidTransfer (lines : List LineSnapshot) : Bool :=
  if lines.length ≠ 2 then false
  else if (lines.map (fun l => l.accountId)).dedup.length ≠ 2 then false
  else if lines.any (fun l => l.categoryId.isSome) then false
  else decide ((lines.map (fun l => l.amountMinor)).sum = 0)

/-- Embeds `_is_valid_non_transfer` (services/transactions.py:78-82). -/
def isValidNonTransfer (lines : List LineSnapshot) : Bool :=
  if lines.isEmpty then false
  else decide ((lines.map (fun l => l.accountId)).dedup.length = 1)

/-- A transaction row as persisted (tables.py `TransactionsTable`). -/
structure TxRow where
  id : Nat
  budgetId : Nat
  postedAt : PyDateTime
  status : TransactionStatus
  notes : Option String
  importId : Option String
  createdAt : Int
deriving DecidableEq, Repr

/-- A transaction line row as persisted (tables.py `TransactionLinesTable`). -/
structure LineRow where
  id : Nat
  transactionId : Nat
  accountId : Nat
  categoryId : Option Nat
  payeeId : Option Nat
  amountMinor : Int
  memo : Option String
deriving DecidableEq, Repr

/-- The persistent store backing `TransactionsDataAccess` and
`AccountsDataAccess`: rows plus an id generator for newly created rows.
`lineTags` holds `(line_id, tag_id)` pairs; `accounts`, `categories`,
`payees` and `tags` hold `(id, budget_id)` pairs. -/
structure Store where
  transactions : List TxRow
  lines : List LineRow
  lineTags : List (Nat × Nat)
  accounts : List (Nat × Nat)
  categories : List (Nat × Nat)
  payees : List (Nat × Nat)
  tags : List (Nat × Nat)
  nextId : Nat
deriving DecidableEq, Repr

/-- `AccountsDataAccess.get_account`, modelled as first match by id. -/
def getAccount (st : Store) (accountId : Nat) : Option (Nat × Nat) :=
  st.accounts.find? (fun p => p.1 == accountId)

/-- Success condition of `_require_account` (services/transactions.py:94-116):
the account exists and belongs to the budget.  The per-request cache in the
source memoizes exactly this result within one call against an unchanging
session, so it is semantically transparent and not modelled. -/
def accountOk (st : Store) (budgetId accountId : Nat) : Bool :=
  match getAccount st accountId with
  | some p => p.2 == budgetId
  | none => false

/-- `category_exists_in_budget` (data_access/transactions.py:87-96). -/
def categoryOk (st : Store) (budgetId categoryId : Nat) : Bool :=
  st.categories.any (fun p => p.1 == categoryId && p.2 == budgetId)

/-- `payee_exists_in_budget` (data_access/transactions.py:98-107). -/
def payeeOk (st : Store) (budgetId payeeId : Nat) : Bool :=
  st.payees.any (fun p => p.1 == payeeId && p.2 == budgetId)

/-- One tag-id's membership in the budget (used by
`list_tag_ids_in_budget`). -/
def tagInBudget (st : Store) (budgetId tagId : Nat) : Bool :=
  st.tags.any (fun p => p.1 == tagId && p.2 == budgetId)

/-- `list_tag_ids_in_budget` (data_access/transactions.py:109-120): the set of
queried ids that exist in the budget, a set being a duplicate-free list. -/
def listTagIdsInBudget (st : Store) (tagIds : List Nat) (budgetId : Nat) : List Nat :=
  (tagIds.filter (fun t => tagInBudget st budgetId t)).dedup

/-- Equality of two lists viewed as sets (the `!=` on Python sets in
`_require_tags`). -/
def setEqList (xs ys : List Nat) : Bool :=
  xs.all (fun x => decide (x ∈ ys)) && ys.all (fun y => decide (y ∈ xs))

/-- Embeds `TransactionsService._require_tags`
(services/transactions.py:168-182). -/
def requireTags (st : Store) (budgetId : Nat) (tagIds : List Nat) :
    Except Err (List Nat) :=
  let deduped := dedupeTagIds tagIds
  if deduped.isEmpty then Except.ok []
  else if setEqList (listTagIdsInBudget st deduped budgetId) deduped then
    Except.ok deduped
  else Except.error .tagNotFound

/-- `get_transaction` header fetch (data_access/transactions.py:153-171),
modelled as first match by id. -/
def getTransaction (st : Store) (txId : Nat) : Option TxRow :=
  st.transactions.find? (fun t => t.id == txId)

/-- The line rows of one transaction. -/
def linesOf (st : Store) (txId : Nat) : List LineRow :=
  st.lines.filter (fun l => l.transactionId == txId)

/-- The tag ids linked to one line. -/
def tagIdsOfLine (st : Store) (lineId : Nat) : List Nat :=
  (st.lineTags.filter (fun p => p.1 == lineId)).map (fun p => p.2)

/-- `_to_transaction_lines` sorts a transaction's lines by id
(data_access/transactions.py:276-283). -/
def sortById (ls : List LineRow) : List LineRow :=
  List.insertionSort (fun a b => a.id ≤ b.id) ls

/-- `_sorted_tag_ids` (data_access/transactions.py:286-290). -/
def sortedTagIds (st : Store) (lineId : Nat) : List Nat :=
  List.insertionSort (fun a b => a ≤ b) (tagIdsOfLine st lineId)

/-- The `line_snapshots` dict built in `update_transaction`
(services/transactions.py:349-361), in the insertion order produced by
`get_transaction`'s id-sorted line list. -/
def snapshotsOf (st : Store) (txId : Nat) : List LineSnapshot :=
  (sortById (linesOf st txId)).map (fun l =>
    { id := l.id, accountId := l.accountId, categoryId := l.categoryId,
      payeeId := l.payeeId, amountMinor := l.amountMinor, memo := l.memo,
      tagIds := sortedTagIds st l.id })

/-- `TransactionLineCreate` (models/transactions.py:18-24). -/
structure TransactionLineCreatePayload where
  accountId : Nat
  categoryId : Option Nat
  payeeId : Option Nat
  amountMinor : Int
  memo : Option String
  tagIds : Option (List Nat)
deriving DecidableEq, Repr

/-- `TransactionCreate` (models/transactions.py:27-32). -/
structure TransactionCreatePayload where
  postedAt : Option PyDateTime
  status : Option String
  notes : Option String
  importId : Option String
  line : TransactionLineCreatePayload
deriving DecidableEq, Repr

/-- Embeds `TransactionsService.create_transaction`
(services/transactions.py:184-241).  `now` stands for
`datetime.now(timezone.utc)` and `createdAt` for the row-creation timestamp.
Errors leave the store untouched (the session rolls back). -/
def createTransaction (st : Store) (now : PyDateTime) (createdAt : Int)
    (budgetId : Nat) (p : TransactionCreatePayload) : Store × Except Err TxRow :=
  if p.line.amountMinor = 0 then (st, Except.error .amountMustBeNonZero)
  else if accountOk st budgetId p.line.accountId = false then
    (st, Except.error .accountNotFound)
  else if p.line.categoryId.any (fun c => !categoryOk st budgetId c) then
    (st, Except.error .categoryNotFound)
  else if p.line.payeeId.any (fun q => !payeeOk st budgetId q) then
    (st, Except.error .payeeNotFound)
  else
    match requireTags st budgetId (p.line.tagIds.getD []) with
    | Except.error e => (st, Except.error e)
    | Except.ok tagIds =>
      match normalizeStatus p.status with
      | Except.error e => (st, Except.error e)
      | Except.ok normStatus =>
        let tx : TxRow :=
          { id := st.nextId, budgetId := budgetId,
            postedAt := normalizePostedAt now p.postedAt, status := normStatus,
            notes := p.notes, importId := p.importId, createdAt := createdAt }
        let line : LineRow :=
          { id := st.nextId + 1, transactionId := tx.id,
            accountId := p.line.accountId, categoryId := p.line.categoryId,
            payeeId := p.line.payeeId, amountMinor := p.line.amountMinor,
            memo := p.line.memo }
        ({ st with
            transactions := st.transactions ++ [tx],
            lines := st.lines ++ [line],
            lineTags := st.lineTags ++ tagIds.map (fun t => (line.id, t)),
            nextId := st.nextId + 2 },
         Except.ok tx)

/-- `TransactionLineUpdate` (models/transactions.py:39-46): the outer `Option`
is pydantic's set/unset distinction (`exclude_unset`), the inner one is an
explicit null. -/
structure TransactionLineUpdatePayload where
  lineId : Nat
  accountId : Option (Option Nat)
  categoryId : Option (Option Nat)
  payeeId : Option (Option Nat)
  amountMinor : Option (Option Int)
  memo : Option (Option String)
  tagIds : Option (Option (List Nat))
deriving DecidableEq, Repr

/-- `TransactionUpdate` (models/transactions.py:49-54), with the same
set/unset reading as `TransactionLineUpdatePayload`. -/
structure TransactionUpdatePayload where
  postedAt : Option (Option PyDateTime)
  status : Option (Option String)
  notes : Option (Option String)
  importId : Option (Option String)
  lines : Option (Option (List TransactionLineUpdatePayload))
deriving DecidableEq, Repr

/-- `len(raw_updates)` where `raw_updates = payload.model_dump(exclude_unset=True)`. -/
def numSetFields (p : TransactionUpdatePayload) : Nat :=
  (if p.postedAt.isSome then 1 else 0) + (if p.status.isSome then 1 else 0) +
    (if p.notes.isSome then 1 else 0) + (if p.importId.isSome then 1 else 0) +
    (if p.lines.isSome then 1 else 0)

/-- Whether the `posted_at` key of the payload passes its null check (absent
or a real value, not an explicit null). -/
def postedFieldOk (p : TransactionUpdatePayload) : Bool :=
  match p.postedAt with
  | some none => false
  | _ => true

/-- Whether the `status` key of the payload passes its checks (absent, or a
non-null string normalizing to a valid status). -/
def statusFieldOk (p : TransactionUpdatePayload) : Bool :=
  match p.status with
  | none => true
  | some none => false
  | some (some s) => (statusOfString s.trim.toLower).isSome

/-- Whether a line patch carries any field besides `line_id`
(`update_fields` after popping `line_id`, services/transactions.py:387-390). -/
def lineUpdateHasFields (u : TransactionLineUpdatePayload) : Bool :=
  u.accountId.isSome || u.categoryId.isSome || u.payeeId.isSome ||
    u.amountMinor.isSome || u.memo.isSome || u.tagIds.isSome

/-- The `line_update_db` dict accumulated per patched line
(services/transactions.py:393-453): fields to write to the row (tag ids are
tracked separately in `tag_updates`). -/
structure LineUpdateDb where
  lineId : Nat
  accountId : Option Nat
  categoryId : Option (Option Nat)
  payeeId : Option (Option Nat)
  amountMinor : Option Int
  memo : Option (Option String)
deriving DecidableEq, Repr

/-- Whether `line_update_db` is non-empty (services/transactions.py:450). -/
def lineUpdateDbHasFields (d : LineUpdateDb) : Bool :=
  d.accountId.isSome || d.categoryId.isSome || d.payeeId.isSome ||
    d.amountMinor.isSome || d.memo.isSome

/-- The `transaction_updates` dict of header fields to write
(services/transactions.py:293-314); `import_id` is never placed in it. -/
structure HeaderUpdates where
  postedAt : Option PyDateTime
  status : Option TransactionStatus
  notes : Option (Option String)
deriving DecidableEq, Repr

/-- `not transaction_updates`. -/
def headerUpdatesEmpty (h : HeaderUpdates) : Bool :=
  h.postedAt.isNone && h.status.isNone && h.notes.isNone

/-- `posted_at` header handling (services/transactions.py:294-301): absent is
skipped, explicit null rejected, a value re-normalized. -/
def postedStep (now : PyDateTime) (h0 : HeaderUpdates)
    (f : Option (Option PyDateTime)) : Except Err HeaderUpdates :=
  match f with
  | none => Except.ok h0
  | some none => Except.error .postedAtRequired
  | some (some d) =>
      Except.ok { h0 with postedAt := some (normalizePostedAt now (some d)) }

/-- `status` header handling (services/transactions.py:303-311). -/
def statusStep (h1 : HeaderUpdates) (f : Option (Option String)) :
    Except Err HeaderUpdates :=
  match f with
  | none => Except.ok h1
  | some none => Except.error .statusRequired
  | some (some s) =>
      match normalizeStatus (some s) with
      | Except.error e => Except.error e
      | Except.ok normStatus => Except.ok { h1 with status := some normStatus }

/-- `notes` header handling (services/transactions.py:313-314). -/
def notesStep (h2 : HeaderUpdates) (f : Option (Option String)) : HeaderUpdates :=
  match f with
  | none => h2
  | some n => { h2 with notes := some n }

/-- `import_id` handling (services/transactions.py:316-327): the submitted
value must equal the stored one and may not be the sole submitted field;
`import_id` is never added to the header updates. -/
def importStep (tx : TxRow) (p : TransactionUpdatePayload)
    (h3 : HeaderUpdates) : Except Err HeaderUpdates :=
  match p.importId with
  | none => Except.ok h3
  | some v =>
    if v ≠ tx.importId then Except.error .importIdImmutable
    else if numSetFields p = 1 then Except.error .importIdImmutable
    else Except.ok h3

/-- Header-field processing of `update_transaction`
(services/transactions.py:293-327): posted_at, status, notes, import_id, in
source order. -/
def buildHeaderUpdates (now : PyDateTime) (tx : TxRow)
    (p : TransactionUpdatePayload) : Except Err HeaderUpdates := do
  let h1 ← postedStep now { postedAt := none, status := none, notes := none } p.postedAt
  let h2 ← statusStep h1 p.status
  let h3 := notesStep h2 p.notes
  importStep tx p h3

/-- The `lines` key handling of `update_transaction`
(services/transactions.py:329-341). -/
def extractLinePayload (p : TransactionUpdatePayload) :
    Except Err (Option (List TransactionLineUpdatePayload)) :=
  match p.lines with
  | none => Except.ok none
  | some none => Except.error .linesCannotBeNull
  | some (some []) => Except.error .noLineUpdatesProvided
  | some (some l) => Except.ok (some l)

/-- `account_id` handling inside the per-line loop
(services/transactions.py:395-406). -/
def stepAccount (st : Store) (budgetId : Nat) (s : LineSnapshot × LineUpdateDb)
    (f : Option (Option Nat)) : Except Err (LineSnapshot × LineUpdateDb) :=
  match f with
  | none => Except.ok s
  | some none => Except.error .accountNotFound
  | some (some a) =>
    if accountOk st budgetId a then
      Except.ok ({ s.1 with accountId := a }, { s.2 with accountId := some a })
    else Except.error .accountNotFound

/-- `category_id` handling inside the per-line loop
(services/transactions.py:408-415). -/
def stepCategory (st : Store) (budgetId : Nat) (s : LineSnapshot × LineUpdateDb)
    (f : Option (Option Nat)) : Except Err (LineSnapshot × LineUpdateDb) :=
  match f with
  | none => Except.ok s
  | some c =>
    if c.any (fun cid => !categoryOk st budgetId cid) then
      Except.error .categoryNotFound
    else Except.ok ({ s.1 with categoryId := c }, { s.2 with categoryId := some c })

/-- `payee_id` handling inside the per-line loop
(services/transactions.py:417-424). -/
def stepPayee (st : Store) (budgetId : Nat) (s : LineSnapshot × LineUpdateDb)
    (f : Option (Option Nat)) : Except Err (LineSnapshot × LineUpdateDb) :=
  match f with
  | none => Except.ok s
  | some q =>
    if q.any (fun qid => !payeeOk st budgetId qid) then
      Except.error .payeeNotFound
    else Except.ok ({ s.1 with payeeId := q }, { s.2 with payeeId := some q })

/-- `amount_minor` handling inside the per-line loop
(services/transactions.py:426-434): an explicit null or zero is rejected. -/
def stepAmount (s : LineSnapshot × LineUpdateDb) (f : Option (Option Int)) :
    Except Err (LineSnapshot × LineUpdateDb) :=
  match f with
  | none => Except.ok s
  | some none => Except.error .amountMustBeNonZero
  | some (some a) =>
    if a = 0 then Except.error .amountMustBeNonZero
    else Except.ok ({ s.1 with amountMinor := a }, { s.2 with amountMinor := some a })

/-- `memo` handling inside the per-line loop (services/transactions.py:436-438). -/
def stepMemo (s : LineSnapshot × LineUpdateDb) (f : Option (Option String)) :
    LineSnapshot × LineUpdateDb :=
  match f with
  | none => s
  | some m => ({ s.1 with memo := m }, { s.2 with memo := some m })

/-- One iteration body of the per-line loop: apply every present field of the
patch to the snapshot, accumulating the row-update record and the optional
tag replacement (services/transactions.py:392-453). -/
def applyLinePatch (st : Store) (budgetId : Nat) (snap0 : LineSnapshot)
    (u : TransactionLineUpdatePayload) :
    Except Err (LineSnapshot × LineUpdateDb × Option (List Nat)) :=
  let db0 : LineUpdateDb :=
    { lineId := u.lineId, accountId := none, categoryId := none,
      payeeId := none, amountMinor := none, memo := none }
  match stepAccount st budgetId (snap0, db0) u.accountId with
  | Except.error e => Except.error e
  | Except.ok s1 =>
    match stepCategory st budgetId s1 u.categoryId with
    | Except.error e => Except.error e
    | Except.ok s2 =>
      match stepPayee st budgetId s2 u.payeeId with
      | Except.error e => Except.error e
      | Except.ok s3 =>
        match stepAmount s3 u.amountMinor with
        | Except.error e => Except.error e
        | Except.ok s4 =>
          let s5 := stepMemo s4 u.memo
          match u.tagIds with
          | none => Except.ok (s5.1, s5.2, none)
          | some t =>
            let tagIds := dedupeTagIds (t.getD [])
            Except.ok ({ s5.1 with tagIds := tagIds }, s5.2, some tagIds)

/-- The state threaded through the per-line loop: the snapshot dict (as an
ordered list of values), `line_updates_to_apply`, `tag_updates` and
`tag_ids_to_validate`. -/
structure LinePlan where
  snapshots : List LineSnapshot
  dbUpdates : List LineUpdateDb
  tagUpdates : List (Nat × List Nat)
  tagIdsToValidate : List Nat
deriving DecidableEq, Repr

/-- Lookup in the snapshot dict. -/
def findSnap (snaps : List LineSnapshot) (lineId : Nat) : Option LineSnapshot :=
  snaps.find? (fun s => s.id == lineId)

/-- In-place value replacement in the snapshot dict (keys and order kept). -/
def replaceSnap (snaps : List LineSnapshot) (s : LineSnapshot) : List LineSnapshot :=
  snaps.map (fun x => if x.id == s.id then s else x)

/-- The per-line loop of `update_transaction`
(services/transactions.py:371-453): duplicate ids rejected, unknown ids
rejected, patches with no fields skipped, the rest applied via
`applyLinePatch`. -/
def processLinePatches (st : Store) (budgetId : Nat) :
    List TransactionLineUpdatePayload → List Nat → LinePlan → Except Err LinePlan
  | [], _, acc => Except.ok acc
  | u :: us, seen, acc =>
    if u.lineId ∈ seen then Except.error .duplicateLineId
    else
      match findSnap acc.snapshots u.lineId with
      | none => Except.error .lineNotFound
      | some snap =>
        if lineUpdateHasFields u = false then
          processLinePatches st budgetId us (u.lineId :: seen) acc
        else
          match applyLinePatch st budgetId snap u with
          | Except.error e => Except.error e
          | Except.ok (snapNew, db, tagsOpt) =>
            let acc2 : LinePlan :=
              { snapshots := replaceSnap acc.snapshots snapNew,
                dbUpdates :=
                  if lineUpdateDbHasFields db then acc.dbUpdates ++ [db]
                  else acc.dbUpdates,
                tagUpdates :=
                  match tagsOpt with
                  | some t => acc.tagUpdates ++ [(u.lineId, t)]
                  | none => acc.tagUpdates,
                tagIdsToValidate := acc.tagIdsToValidate ++ tagsOpt.getD [] }
            processLinePatches st budgetId us (u.lineId :: seen) acc2

/-- Everything `update_transaction` validates and plans before any write
(services/transactions.py:277-462): the successful result carries the header
updates, the row updates, the tag replacements and the merged in-memory line
snapshot of the entire line set. -/
structure UpdatePlan where
  header : HeaderUpdates
  dbUpdates : List LineUpdateDb
  tagUpdates : List (Nat × List Nat)
  merged : List LineSnapshot
deriving DecidableEq, Repr

/-- The validation/planning stage of `update_transaction`, in source order:
fetch, empty-payload check, header fields, lines-key checks, first
no-fields check, per-line loop, second no-fields check, tag validation. -/
def updateStage (st : Store) (now : PyDateTime) (budgetId txId : Nat)
    (p : TransactionUpdatePayload) : Except Err UpdatePlan :=
  match getTransaction st txId with
  | none => Except.error .transactionNotFound
  | some tx =>
    if tx.budgetId ≠ budgetId then Except.error .transactionNotFound
    else if numSetFields p = 0 then Except.error .noFieldsToUpdate
    else
      match buildHeaderUpdates now tx p with
      | Except.error e => Except.error e
      | Except.ok header =>
        match extractLinePayload p with
        | Except.error e => Except.error e
        | Except.ok linePayload =>
          if headerUpdatesEmpty header && linePayload.isNone then
            Except.error .noFieldsToUpdate
          else
            match processLinePatches st budgetId (linePayload.getD []) []
                ⟨snapshotsOf st txId, [], [], []⟩ with
            | Except.error e => Except.error e
            | Except.ok plan =>
              if headerUpdatesEmpty header && plan.dbUpdates.isEmpty &&
                  plan.tagUpdates.isEmpty then
                Except.error .noFieldsToUpdate
              else if plan.tagIdsToValidate.isEmpty then
                Except.ok ⟨header, plan.dbUpdates, plan.tagUpdates, plan.snapshots⟩
              else
                match requireTags st budgetId plan.tagIdsToValidate with
                | Except.error e => Except.error e
                | Except.ok _ =>
                  Except.ok ⟨header, plan.dbUpdates, plan.tagUpdates, plan.snapshots⟩

/-- Applying `transaction_updates` to a header row
(data_access/transactions.py:173-183); note `import_id` cannot appear. -/
def applyHeaderUpdates (h : HeaderUpdates) (t : TxRow) : TxRow :=
  { t with
      postedAt := h.postedAt.getD t.postedAt,
      status := h.status.getD t.status,
      notes := match h.notes with | some n => n | none => t.notes }

/-- `update_transaction` store write for header fields. -/
def applyHeaderToStore (st : Store) (txId : Nat) (h : HeaderUpdates) : Store :=
  { st with
      transactions := st.transactions.map
        (fun t => if t.id == txId then applyHeaderUpdates h t else t) }

/-- Applying one `line_update_db` record to a line row
(data_access/transactions.py:193-209). -/
def applyLineDb (d : LineUpdateDb) (l : LineRow) : LineRow :=
  { l with
      accountId := d.accountId.getD l.accountId,
      categoryId := match d.categoryId with | some c => c | none => l.categoryId,
      payeeId := match d.payeeId with | some q => q | none => l.payeeId,
      amountMinor := d.amountMinor.getD l.amountMinor,
      memo := match d.memo with | some m => m | none => l.memo }

/-- `update_transaction_lines`: each targeted row is updated in place; ids
not present are skipped. -/
def applyLineUpdatesToStore (st : Store) (ds : List LineUpdateDb) : Store :=
  ds.foldl
    (fun acc d =>
      { acc with
          lines := acc.lines.map
            (fun l => if l.id == d.lineId then applyLineDb d l else l) })
    st

/-- `replace_transaction_line_tags` (data_access/transactions.py:224-243):
drop all links of the targeted lines, then insert the new ones. -/
def applyTagUpdatesToStore (st : Store) (tu : List (Nat × List Nat)) : Store :=
  let lineIds := tu.map (fun x => x.1)
  { st with
      lineTags :=
        st.lineTags.filter (fun p => !(lineIds.contains p.1)) ++
          (tu.map (fun x => x.2.map (fun t => (x.1, t)))).flatten }

/-- Embeds `TransactionsService.update_transaction`
(services/transactions.py:270-499): plan and validate everything, check the
merged line set against the transfer-or-non-transfer invariant, then write
header, lines and tag links.  Errors return the store unchanged. -/
def updateTransaction (st : Store) (now : PyDateTime) (budgetId txId : Nat)
    (p : TransactionUpdatePayload) : Store × Except Err Unit :=
  match updateStage st now budgetId txId p with
  | Except.error e => (st, Except.error e)
  | Except.ok plan =>
    if isValidTransfer plan.merged = false ∧ isValidNonTransfer plan.merged = false then
      (st, Except.error .invalidTransactionLines)
    else
      let st1 := if headerUpdatesEmpty plan.header then st
                 else applyHeaderToStore st txId plan.header
      let st2 := if plan.dbUpdates.isEmpty then st1
                 else applyLineUpdatesToStore st1 plan.dbUpdates
      let st3 := if plan.tagUpdates.isEmpty then st2
                 else applyTagUpdatesToStore st2 plan.tagUpdates
      (st3, Except.ok ())

/-- The `(posted_at desc, created_at desc, id desc)` sort key of
`list_transactions` (data_access/transactions.py:122-133), as an ascending
lexicographic key to be reversed by the comparator. -/
def txKey (t : TxRow) : Lex (Int × Lex (Int × Nat)) :=
  toLex (t.postedAt.instant, toLex (t.createdAt, t.id))

/-- `a` may be listed no later than `b`: descending comparison on `txKey`. -/
def listBefore (a b : TxRow) : Prop :=
  txKey b ≤ txKey a

instance : DecidableRel listBefore := fun a b =>
  inferInstanceAs (Decidable (txKey b ≤ txKey a))

instance : IsTotal TxRow listBefore :=
  ⟨fun a b => le_total (txKey b) (txKey a)⟩

instance : IsTrans TxRow listBefore :=
  ⟨fun _ _ _ hab hbc => le_trans hbc hab⟩

/-- Embeds `list_transactions` (data_access/transactions.py:122-133): the
budget's transactions ordered by posted_at, created_at and id, all
descending. -/
def listTransactions (st : Store) (budgetId : Nat) : List TxRow :=
  List.insertionSort listBefore (st.transactions.filter (fun t => t.budgetId == budgetId))

/-- The strict version of the listing order: strictly greater under the
lexicographic `(posted_at, created_at, id)` comparison. -/
def strictlyAfter (a b : TxRow) : Prop :=
  txKey b < txKey a

/-- Modelled from the spec: the `TransferCreate` request model is imported by
the routers but missing from the repository sources.  Fields follow §4.2's
`create_transfer(budget_id, from_account, to_account, amount, notes, memo)`
plus the payee the operation must reject. -/
structure TransferCreatePayload where
  fromAccountId : Nat
  toAccountId : Nat
  amountMinor : Int
  notes : Option String
  memo : Option String
  payeeId : Option Nat
deriving DecidableEq, Repr

/-- Modelled from the spec: `TransactionsService.create_transfer` is called by
the router but missing from the repository sources.  Per §4.2: requires
distinct accounts (`TransferAccountsMustDiffer`), non-zero amount, no payee
(`PayeeNotAllowedForTransfers`); both referenced accounts must belong to the
budget (§3); creates one transaction with exactly two categoryless, payeeless
lines `(from_account, -amount)` and `(to_account, +amount)`, the same memo on
both, default `posted` status. -/
def createTransfer (st : Store) (now : PyDateTime) (createdAt : Int)
    (budgetId : Nat) (p : TransferCreatePayload) : Store × Except Err TxRow :=
  if p.fromAccountId = p.toAccountId then
    (st, Except.error .transferAccountsMustDiffer)
  else if p.amountMinor = 0 then (st, Except.error .amountMustBeNonZero)
  else if p.payeeId.isSome then (st, Except.error .payeeNotAllowedForTransfers)
  else if accountOk st budgetId p.fromAccountId = false then
    (st, Except.error .accountNotFound)
  else if accountOk st budgetId p.toAccountId = false then
    (st, Except.error .accountNotFound)
  else
    let tx : TxRow :=
      { id := st.nextId, budgetId := budgetId,
        postedAt := normalizePostedAt now none, status := .posted,
        notes := p.notes, importId := none, createdAt := createdAt }
    let fromLine : LineRow :=
      { id := st.nextId + 1, transactionId := tx.id,
        accountId := p.fromAccountId, categoryId := none, payeeId := none,
        amountMinor := -p.amountMinor, memo := p.memo }
    let toLine : LineRow :=
      { id := st.nextId + 2, transactionId := tx.id,
        accountId := p.toAccountId, categoryId := none, payeeId := none,
        amountMinor := p.amountMinor, memo := p.memo }
    ({ st with
        transactions := st.transactions ++ [tx],
        lines := st.lines ++ [fromLine, toLine],
        nextId := st.nextId + 3 },
     Except.ok tx)

/-- Modelled from the spec: one draft of the bulk-import batch (§4.3), a
caller-supplied `import_id` plus one line in the shape of 4.2's create. -/
structure BulkDraft where
  importId : String
  line : TransactionLineCreatePayload
deriving DecidableEq, Repr

/-- Modelled from the spec: the `{created_count, existing_count}` bulk-import
result (§4.3). -/
structure ImportSummary where
  createdCount : Nat
  existingCount : Nat
deriving DecidableEq, Repr

/-- Modelled from the spec: bulk-import rejections — a per-index duplicate
report, or a draft failing 4.2's create validation (which aborts the whole
batch, §7). -/
inductive BulkErr where
  | duplicateImportId (indices : List Nat)
  | draftRejected (e : Err)
deriving DecidableEq, Repr

/-- Whether some transaction of the budget already carries this import id. -/
def importIdExists (st : Store) (budgetId : Nat) (importId : String) : Bool :=
  st.transactions.any (fun t => t.budgetId == budgetId && t.importId == some importId)

/-- The single-transaction create payload of a draft. -/
def draftPayload (d : BulkDraft) : TransactionCreatePayload :=
  { postedAt := none, status := none, notes := none,
    importId := some d.importId, line := d.line }

/-- Modelled from the spec: the per-draft loop of §4.3 — skip drafts whose
`import_id` already exists (counted as existing), create the rest via 4.2's
create path (counted as created); a failing create aborts the batch. -/
def processDrafts (now : PyDateTime) (createdAt : Int) (budgetId : Nat) :
    Store → Nat → Nat → List BulkDraft → Except Err (Store × ImportSummary)
  | st, created, existing, [] => Except.ok (st, ⟨created, existing⟩)
  | st, created, existing, d :: ds =>
    if importIdExists st budgetId d.importId then
      processDrafts now createdAt budgetId st created (existing + 1) ds
    else
      match createTransaction st now createdAt budgetId (draftPayload d) with
      | (_, Except.error e) => Except.error e
      | (stNew, Except.ok _) =>
        processDrafts now createdAt budgetId stNew (created + 1) existing ds

/-- Modelled from the spec: every index whose `import_id` repeats within the
batch (§4.3 reports all offending indices). -/
def duplicateIndices (drafts : List BulkDraft) : List Nat :=
  let ids := drafts.map (fun d => d.importId)
  (List.range drafts.length).filter (fun i =>
    match ids[i]? with
    | some x => decide (2 ≤ ids.count x)
    | none => false)

/-- Modelled from the spec: the Bulk Import Coordinator (§4.3) —
`TransactionsService` has no bulk-import method in the repository sources
(only its tests exist).  Rejects the whole batch when any
draft repeats an import id within the batch, otherwise processes drafts in
order. -/
def bulkImport (st : Store) (now : PyDateTime) (createdAt : Int) (budgetId : Nat)
    (drafts : List BulkDraft) : Store × Except BulkErr ImportSummary :=
  if (duplicateIndices drafts).isEmpty = false then
    (st, Except.error (.duplicateImportId (duplicateIndices drafts)))
  else
    match processDrafts now createdAt budgetId st 0 0 drafts with
    | Except.error e => (st, Except.error (.draftRejected e))
    | Except.ok (stNew, s) => (stNew, Except.ok s)

instance {ε α : Type} [DecidableEq ε] [DecidableEq α] : DecidableEq (Except ε α) :=
  fun a b =>
    match a, b with
    | .ok x, .ok y =>
      if h : x = y then isTrue (congrArg Except.ok h)
      else isFalse (fun hh => h (Except.ok.inj hh))
    | .error x, .error y =>
      if h : x = y then isTrue (congrArg Except.error h)
      else isFalse (fun hh => h (Except.error.inj hh))
    | .ok _, .error _ => isFalse (fun hh => Except.noConfusion hh)
    | .error _, .ok _ => isFalse (fun hh => Except.noConfusion hh)

/-- A small concrete store used by witness theorems: budget 1 with two
accounts, a category, a payee, one tag, a transfer transaction (id 10, lines
21/22) and a single-line transaction (id 11, line 23). -/
def witnessStore : Store :=
  { transactions :=
      [{ id := 10, budgetId := 1, postedAt := ⟨0, some 0⟩, status := .posted,
         notes := none, importId := some "imp-10", createdAt := 0 },
       { id := 11, budgetId := 1, postedAt := ⟨5, some 0⟩, status := .posted,
         notes := some "Dinner", importId := none, createdAt := 1 }],
    lines :=
      [{ id := 21, transactionId := 10, accountId := 1, categoryId := none,
         payeeId := none, amountMinor := -5, memo := none },
       { id := 22, transactionId := 10, accountId := 2, categoryId := none,
         payeeId := none, amountMinor := 5, memo := none },
       { id := 23, transactionId := 11, accountId := 1, categoryId := none,
         payeeId := none, amountMinor := -500, memo := none }],
    lineTags := [],
    accounts := [(1, 1), (2, 1), (3, 2)],
    categories := [(7, 1)],
    payees := [(8, 1)],
    tags := [(5, 1), (6, 1)],
    nextId := 100 }

/-- The update payload with no field set (an empty PATCH body). -/
def emptyUpdatePayload : TransactionUpdatePayload :=
  { postedAt := none, status := none, notes := none, importId := none, lines := none }

/-- A line patch setting only `amount_minor` of line 21 to 7, which breaks
the transfer balance of transaction 10 in the witness store. -/
def amountPatchW : TransactionLineUpdatePayload :=
  { lineId := 21, accountId := none, categoryId := none, payeeId := none,
    amountMinor := some (some 7), memo := none, tagIds := none }

/-- The update payload carrying only `amountPatchW`. -/
def invalidLinesPayloadW : TransactionUpdatePayload :=
  { emptyUpdatePayload with lines := some (some [amountPatchW]) }

/-- An update payload re-submitting the notes value transaction 11 of the
witness store already has. -/
def equalNotesPayloadW : TransactionUpdatePayload :=
  { emptyUpdatePayload with notes := some (some "Dinner") }

/-- An update payload submitting a changed `import_id`. -/
def importChangePayloadW : TransactionUpdatePayload :=
  { emptyUpdatePayload with importId := some (some "other") }

/-- An update payload re-submitting transaction 10's unchanged `import_id`
as the sole field. -/
def importSolePayloadW : TransactionUpdatePayload :=
  { emptyUpdatePayload with importId := some (some "imp-10") }

/-- A create payload whose single line carries a zero amount. -/
def zeroAmountCreateW : TransactionCreatePayload :=
  { postedAt := none, status := none, notes := none, importId := none,
    line := { accountId := 1, categoryId := none, payeeId := none,
              amountMinor := 0, memo := none, tagIds := none } }

/-- Two bulk-import drafts with fresh import ids against account 1. -/
def draftsW : List BulkDraft :=
  [{ importId := "imp-a",
     line := { accountId := 1, categoryId := none, payeeId := none,
               amountMinor := -500, memo := none, tagIds := none } },
   { importId := "imp-b",
     line := { accountId := 1, categoryId := none, payeeId := none,
               amountMinor := -750, memo := none, tagIds := none } }]

/-- A duplicate-free list of all elements of `l` equal to some element of the
list only once: helper lemmas about `List.dedup` on pairs. -/
theorem dedup_pair_length (x y : Nat) : ([x, y].dedup.length = 2) ↔ x ≠ y := by
  by_cases h : x = y
  · subst h
    simp [List.dedup_cons_of_mem, List.mem_singleton]
  · rw [List.dedup_cons_of_not_mem (by simpa using h)]
    simpa using h

theorem dedup_length_one {l : List Nat} (h : l ≠ []) :
    l.dedup.length = 1 ↔ ∃ a, ∀ x ∈ l, x = a := by
  constructor
  · intro hlen
    obtain ⟨a, ha⟩ := List.length_eq_one.mp hlen
    refine ⟨a, fun x hx => ?_⟩
    have : x ∈ l.dedup := List.mem_dedup.mpr hx
    rw [ha] at this
    simpa using this
  · rintro ⟨a, ha⟩
    have hnd : l.dedup ≠ [] := by
      intro hnil
      obtain ⟨x, hx⟩ := List.exists_mem_of_ne_nil l h
      have : x ∈ l.dedup := List.mem_dedup.mpr hx
      rw [hnil] at this
      simp at this
    obtain ⟨b, bs, hcons⟩ := List.exists_cons_of_ne_nil hnd
    have hnodup : l.dedup.Nodup := l.nodup_dedup
    rw [hcons] at hnodup
    have hb : b = a := ha b (List.mem_dedup.mp (hcons ▸ List.mem_cons_self b bs))
    have hbs : bs = [] := by
      cases hbs : bs with
      | nil => rfl
      | cons c cs =>
        exfalso
        have hc : c ∈ l.dedup := by
          rw [hcons, hbs]
          simp
        have hca : c = a := ha c (List.mem_dedup.mp hc)
        have : b ∉ bs := (List.nodup_cons.mp hnodup).1
        rw [hbs] at this
        exact this (by simp [hca, hb])
    rw [hcons, hbs]
    rfl

/-- C10: posted_at normalization is total over optional datetimes and never
rejects a timezone-naive value: absent posted_at becomes the current UTC
instant `now`; a timezone-aware value is converted to UTC preserving the
instant; a timezone-naive value gets the UTC offset attached without
shifting the clock value. -/
theorem normalize_posted_at_total :
    (∀ now : PyDateTime, normalizePostedAt now none = now) ∧
    (∀ (now d : PyDateTime), d.offset = none →
      normalizePostedAt now (some d) = ⟨d.clock, some 0⟩) ∧
    (∀ (now d : PyDateTime) (o : Int), d.offset = some o →
      normalizePostedAt now (some d) = ⟨d.clock - o, some 0⟩ ∧
        PyDateTime.instant ⟨d.clock - o, some 0⟩ = d.instant) := by
  refine ⟨fun _ => rfl, ?_, ?_⟩
  · intro now d h
    simp [normalizePostedAt, h]
  · intro now d o h
    refine ⟨by simp [normalizePostedAt, h], ?_⟩
    simp [PyDateTime.instant, h]

/-- Witness for `normalize_posted_at_total` at concrete datetimes. -/
theorem normalize_posted_at_total_witness :
    normalizePostedAt ⟨100, some 0⟩ none = ⟨100, some 0⟩ ∧
    normalizePostedAt ⟨100, some 0⟩ (some ⟨50, none⟩) = ⟨50, some 0⟩ ∧
    normalizePostedAt ⟨100, some 0⟩ (some ⟨50, some 30⟩) = ⟨50 - 30, some 0⟩ :=
  ⟨normalize_posted_at_total.1 ⟨100, some 0⟩,
   normalize_posted_at_total.2.1 ⟨100, some 0⟩ ⟨50, none⟩ rfl,
   (normalize_posted_at_total.2.2 ⟨100, some 0⟩ ⟨50, some 30⟩ 30 rfl).1⟩

/-- C2: a line set is a valid transfer iff it has exactly 2 lines on 2
distinct accounts, no category on either line, and amounts summing to 0; it
is a valid non-transfer iff it is non-empty and all lines share one
account-id. -/
theorem valid_shapes_characterization :
    (∀ lines : List LineSnapshot,
        isValidTransfer lines = true ↔
          ∃ a b : LineSnapshot, lines = [a, b] ∧ a.accountId ≠ b.accountId ∧
            a.categoryId = none ∧ b.categoryId = none ∧
            a.amountMinor + b.amountMinor = 0) ∧
    (∀ lines : List LineSnapshot,
        isValidNonTransfer lines = true ↔
          lines ≠ [] ∧ ∃ acc : Nat, ∀ l ∈ lines, l.accountId = acc) := by
  constructor
  · intro lines
    constructor
    · intro h
      unfold isValidTransfer at h
      split_ifs at h with h1 h2 h3
      push_neg at h1 h2
      obtain ⟨a, b, rfl⟩ := List.length_eq_two.mp h1
      simp only [List.any_eq_true, not_exists, not_and] at h3
      refine ⟨a, b, rfl, ?_, ?_, ?_, ?_⟩
      · exact (dedup_pair_length _ _).mp (by simpa using h2)
      · have ha := h3 a (by simp)
        cases hval : a.categoryId with
        | none => rfl
        | some c => exact absurd (by simp [hval] : a.categoryId.isSome = true) ha
      · have hb := h3 b (by simp)
        cases hval : b.categoryId with
        | none => rfl
        | some c => exact absurd (by simp [hval] : b.categoryId.isSome = true) hb
      · have := of_decide_eq_true h
        simpa using this
    · rintro ⟨a, b, rfl, hacc, hca, hcb, hsum⟩
      have hd : ([a.accountId, b.accountId].dedup.length = 2) :=
        (dedup_pair_length _ _).mpr hacc
      simp [isValidTransfer, hca, hcb, hd, hsum]
  · intro lines
    constructor
    · intro h
      unfold isValidNonTransfer at h
      split_ifs at h with h1
      have hne : lines ≠ [] := by
        intro hnil
        exact h1 (by simp [hnil])
      have hd := of_decide_eq_true h
      have hmapne : lines.map (fun l => l.accountId) ≠ [] := by
        simpa [List.map_eq_nil_iff] using hne
      obtain ⟨acc, hacc⟩ := (dedup_length_one hmapne).mp hd
      exact ⟨hne, acc, fun l hl => hacc _ (List.mem_map_of_mem _ hl)⟩
    · rintro ⟨hne, acc, hall⟩
      unfold isValidNonTransfer
      rw [if_neg (by simpa [List.isEmpty_iff] using hne)]
      apply decide_eq_true
      refine (dedup_length_one (by simpa [List.map_eq_nil_iff] using hne)).mpr ⟨acc, ?_⟩
      intro x hx
      obtain ⟨l, hl, rfl⟩ := List.mem_map.mp hx
      exact hall l hl

theorem mem_dedupeAux (x : Nat) :
    ∀ (l seen : List Nat), x ∈ dedupeAux seen l ↔ x ∈ l ∧ x ∉ seen := by
  intro l
  induction l with
  | nil => intro seen; simp [dedupeAux]
  | cons t ts ih =>
    intro seen
    by_cases ht : t ∈ seen
    · rw [dedupeAux, if_pos ht, ih]
      simp only [List.mem_cons]
      constructor
      · rintro ⟨hx, hn⟩
        exact ⟨Or.inr hx, hn⟩
      · rintro ⟨hx | hx, hn⟩
        · exact absurd (hx ▸ ht) hn
        · exact ⟨hx, hn⟩
    · rw [dedupeAux, if_neg ht]
      simp only [List.mem_cons, ih]
      constructor
      · rintro (rfl | ⟨hx, hn⟩)
        · exact ⟨Or.inl rfl, ht⟩
        · exact ⟨Or.inr hx, fun hs => hn (Or.inr hs)⟩
      · rintro ⟨rfl | hx, hn⟩
        · exact Or.inl rfl
        · by_cases hxt : x = t
          · exact Or.inl hxt
          · refine Or.inr ⟨hx, ?_⟩
            simp only [List.mem_cons, not_or]
            exact ⟨hxt, hn⟩

theorem mem_dedupeTagIds (x : Nat) (l : List Nat) :
    x ∈ dedupeTagIds l ↔ x ∈ l := by
  simpa using mem_dedupeAux x l []

theorem dedupeAux_eq_firstOcc :
    ∀ (l seen : List Nat),
      dedupeAux seen l = firstOccurrenceDedupe (l.filter (fun y => decide (y ∉ seen))) := by
  intro l
  induction l with
  | nil => intro seen; simp [dedupeAux, firstOccurrenceDedupe]
  | cons t ts ih =>
    intro seen
    by_cases ht : t ∈ seen
    · rw [dedupeAux, if_pos ht, ih]
      simp [List.filter_cons, ht]
    · rw [dedupeAux, if_neg ht, ih]
      rw [List.filter_cons]
      simp only [ht, not_false_eq_true, decide_True, if_true]
      rw [firstOccurrenceDedupe.eq_2, List.filter_filter]
      congr 2
      apply List.filter_congr
      intro a _
      by_cases h1 : a = t <;> by_cases h2 : a ∈ seen <;> simp [h1, h2]

theorem dedupeTagIds_eq_firstOcc (l : List Nat) :
    dedupeTagIds l = firstOccurrenceDedupe l := by
  rw [dedupeTagIds, dedupeAux_eq_firstOcc]
  congr 1
  apply List.filter_eq_self.mpr
  intro a _
  simp

theorem requireTags_ok_iff (st : Store) (b : Nat) (ids out : List Nat) :
    requireTags st b ids = Except.ok out ↔
      out = dedupeTagIds ids ∧ ∀ t ∈ ids, tagInBudget st b t = true := by
  unfold requireTags
  by_cases hempty : (dedupeTagIds ids).isEmpty
  · have hids : ids = [] := by
      cases hc : ids with
      | nil => rfl
      | cons t ts =>
        exfalso
        have : t ∈ dedupeTagIds ids := (mem_dedupeTagIds t ids).mpr (by simp [hc])
        rw [List.isEmpty_iff.mp hempty] at this
        simp at this
    subst hids
    simp only [hempty, if_true]
    constructor
    · intro h
      cases h
      exact ⟨by simp [dedupeTagIds, dedupeAux], by simp⟩
    · rintro ⟨rfl, _⟩
      simp [dedupeTagIds, dedupeAux]
  · rw [if_neg hempty]
    have hmemEx : ∀ y, y ∈ listTagIdsInBudget st (dedupeTagIds ids) b ↔
        y ∈ dedupeTagIds ids ∧ tagInBudget st b y = true := by
      intro y
      simp [listTagIdsInBudget, List.mem_dedup, List.mem_filter]
    by_cases hcond : setEqList (listTagIdsInBudget st (dedupeTagIds ids) b) (dedupeTagIds ids) = true
    · rw [if_pos hcond]
      have hall : ∀ t ∈ ids, tagInBudget st b t = true := by
        intro t hts
        have ht : t ∈ dedupeTagIds ids := (mem_dedupeTagIds t ids).mpr hts
        have := (List.all_eq_true.mp (Bool.and_elim_right hcond)) t ht
        have hmem : t ∈ listTagIdsInBudget st (dedupeTagIds ids) b :=
          of_decide_eq_true this
        exact ((hmemEx t).mp hmem).2
      constructor
      · intro h
        cases h
        exact ⟨rfl, hall⟩
      · rintro ⟨rfl, _⟩
        rfl
    · rw [if_neg hcond]
      constructor
      · intro h
        cases h
      · rintro ⟨rfl, hall⟩
        exfalso
        apply hcond
        rw [setEqList, Bool.and_eq_true]
        constructor
        · apply List.all_eq_true.mpr
          intro x hx
          exact decide_eq_true ((hmemEx x).mp hx).1
        · apply List.all_eq_true.mpr
          intro y hy
          apply decide_eq_true
          apply (hmemEx y).mpr
          exact ⟨hy, hall y ((mem_dedupeTagIds y ids).mp hy)⟩

/-- C8: tag validation first deduplicates the submitted list by identity
preserving first-occurrence order, then succeeds returning the deduplicated
list iff every submitted tag id exists in the budget (equivalently, the set
found equals the deduplicated input set); any unknown tag id anywhere in the
list fails the whole operation with TagNotFound. -/
theorem require_tags_spec :
    (∀ ids : List Nat, dedupeTagIds ids = firstOccurrenceDedupe ids) ∧
    (∀ (st : Store) (b : Nat) (ids out : List Nat),
        requireTags st b ids = Except.ok out ↔
          out = dedupeTagIds ids ∧ ∀ t ∈ ids, tagInBudget st b t = true) ∧
    (∀ (st : Store) (b : Nat) (ids : List Nat) (t : Nat), t ∈ ids →
        tagInBudget st b t = false →
        requireTags st b ids = Except.error Err.tagNotFound) := by
  refine ⟨dedupeTagIds_eq_firstOcc, requireTags_ok_iff, ?_⟩
  intro st b ids t hmem hfalse
  cases hres : requireTags st b ids with
  | ok out =>
    exfalso
    have := ((requireTags_ok_iff st b ids out).mp hres).2 t hmem
    rw [hfalse] at this
    cases this
  | error e =>
    have : e = Err.tagNotFound := by
      revert hres
      unfold requireTags
      by_cases hempty : (dedupeTagIds ids).isEmpty
      · intro hres
        rw [if_pos hempty] at hres
        cases hres
      · rw [if_neg hempty]
        by_cases hcond : setEqList (listTagIdsInBudget st (dedupeTagIds ids) b)
            (dedupeTagIds ids) = true
        · rw [if_pos hcond]
          intro hres
          cases hres
        · rw [if_neg hcond]
          intro hres
          cases hres
          rfl
    rw [this]

/-- Witness for `require_tags_spec`: tag 5 exists in budget 1 of the witness
store but 99 does not, so validating `[5, 99]` fails with TagNotFound. -/
theorem require_tags_spec_witness :
    requireTags witnessStore 1 [5, 99] = Except.error Err.tagNotFound :=
  require_tags_spec.2.2 witnessStore 1 [5, 99] 99 (by decide) (by decide)

/-- C9: listing a budget's transactions returns exactly its transactions
(as a permutation of the stored filter) ordered by posted_at desc, then
created_at desc, then id desc; with pairwise-distinct ids this is a strict
total order: every earlier element is strictly greater in the lexicographic
key than every later one. -/
theorem list_transactions_ordered (st : Store) (b : Nat)
    (h : ((st.transactions.filter (fun t => t.budgetId == b)).map (fun t => t.id)).Nodup) :
    (listTransactions st b).Perm (st.transactions.filter (fun t => t.budgetId == b)) ∧
    (listTransactions st b).Pairwise strictlyAfter := by
  have hperm : (listTransactions st b).Perm
      (st.transactions.filter (fun t => t.budgetId == b)) :=
    List.perm_insertionSort listBefore _
  refine ⟨hperm, ?_⟩
  have hsorted : List.Pairwise listBefore (listTransactions st b) :=
    List.sorted_insertionSort listBefore _
  have hnodup : ((listTransactions st b).map (fun t => t.id)).Nodup :=
    ((hperm.map (fun t => t.id)).nodup_iff).mpr h
  have hne : (listTransactions st b).Pairwise (fun a c => a.id ≠ c.id) :=
    (List.pairwise_map).mp hnodup
  refine (hsorted.and hne).imp ?_
  intro a c hac
  obtain ⟨hle, hid⟩ := hac
  refine lt_of_le_of_ne hle ?_
  intro heq
  apply hid
  have h2 := congrArg ofLex heq
  have h3 := congrArg Prod.snd h2
  have h4 := congrArg ofLex h3
  exact (congrArg Prod.snd h4).symm

/-- Witness for `list_transactions_ordered` on the concrete witness store. -/
theorem list_transactions_ordered_witness :
    (listTransactions witnessStore 1).Perm
        (witnessStore.transactions.filter (fun t => t.budgetId == 1)) ∧
    (listTransactions witnessStore 1).Pairwise strictlyAfter :=
  list_transactions_ordered witnessStore 1 (by decide)

/-- C5: create_transfer rejects equal accounts (TransferAccountsMustDiffer),
zero amounts, and any supplied payee (PayeeNotAllowedForTransfers);
otherwise it creates one transaction with exactly the two lines
`(from_account, -amount)` and `(to_account, +amount)`, both categoryless and
payeeless and carrying the same memo. -/
theorem create_transfer_spec :
    (∀ (st : Store) (now : PyDateTime) (c : Int) (b : Nat) (p : TransferCreatePayload),
        p.fromAccountId = p.toAccountId →
        createTransfer st now c b p = (st, Except.error Err.transferAccountsMustDiffer)) ∧
    (∀ (st : Store) (now : PyDateTime) (c : Int) (b : Nat) (p : TransferCreatePayload),
        p.fromAccountId ≠ p.toAccountId → p.amountMinor = 0 →
        createTransfer st now c b p = (st, Except.error Err.amountMustBeNonZero)) ∧
    (∀ (st : Store) (now : PyDateTime) (c : Int) (b : Nat) (p : TransferCreatePayload),
        p.fromAccountId ≠ p.toAccountId → p.amountMinor ≠ 0 →
        p.payeeId.isSome = true →
        createTransfer st now c b p = (st, Except.error Err.payeeNotAllowedForTransfers)) ∧
    (∀ (st : Store) (now : PyDateTime) (c : Int) (b : Nat) (p : TransferCreatePayload),
        p.fromAccountId ≠ p.toAccountId → p.amountMinor ≠ 0 → p.payeeId = none →
        accountOk st b p.fromAccountId = true → accountOk st b p.toAccountId = true →
        createTransfer st now c b p =
          ({ st with
              transactions := st.transactions ++
                [{ id := st.nextId, budgetId := b, postedAt := now,
                   status := TransactionStatus.posted, notes := p.notes,
                   importId := none, createdAt := c }],
              lines := st.lines ++
                [{ id := st.nextId + 1, transactionId := st.nextId,
                   accountId := p.fromAccountId, categoryId := none, payeeId := none,
                   amountMinor := -p.amountMinor, memo := p.memo },
                 { id := st.nextId + 2, transactionId := st.nextId,
                   accountId := p.toAccountId, categoryId := none, payeeId := none,
                   amountMinor := p.amountMinor, memo := p.memo }],
              nextId := st.nextId + 3 },
           Except.ok { id := st.nextId, budgetId := b, postedAt := now,
                       status := TransactionStatus.posted, notes := p.notes,
                       importId := none, createdAt := c })) := by
  refine ⟨?_, ?_, ?_, ?_⟩
  · intro st now c b p h1
    unfold createTransfer
    rw [if_pos h1]
  · intro st now c b p h1 h2
    unfold createTransfer
    rw [if_neg h1, if_pos h2]
  · intro st now c b p h1 h2 h3
    unfold createTransfer
    rw [if_neg h1, if_neg h2, if_pos h3]
  · intro st now c b p h1 h2 h3 h4 h5
    unfold createTransfer
    rw [if_neg h1, if_neg h2, if_neg (by simp [h3]), if_neg (by simp [h4]),
      if_neg (by simp [h5])]
    rfl

/-- Witness for `create_transfer_spec`: a same-account transfer is rejected
and a valid transfer between accounts 1 and 2 creates the two opposite
lines. -/
theorem create_transfer_spec_witness :
    createTransfer witnessStore ⟨0, some 0⟩ 2 1
        { fromAccountId := 1, toAccountId := 1, amountMinor := -750,
          notes := none, memo := none, payeeId := none } =
      (witnessStore, Except.error Err.transferAccountsMustDiffer) ∧
    createTransfer witnessStore ⟨0, some 0⟩ 2 1
        { fromAccountId := 1, toAccountId := 2, amountMinor := -750,
          notes := some "Move", memo := some "Savings", payeeId := none } =
      ({ witnessStore with
          transactions := witnessStore.transactions ++
            [{ id := 100, budgetId := 1, postedAt := ⟨0, some 0⟩,
               status := TransactionStatus.posted, notes := some "Move",
               importId := none, createdAt := 2 }],
          lines := witnessStore.lines ++
            [{ id := 101, transactionId := 100, accountId := 1, categoryId := none,
               payeeId := none, amountMinor := 750, memo := some "Savings" },
             { id := 102, transactionId := 100, accountId := 2, categoryId := none,
               payeeId := none, amountMinor := -750, memo := some "Savings" }],
          nextId := 103 },
       Except.ok { id := 100, budgetId := 1, postedAt := ⟨0, some 0⟩,
                   status := TransactionStatus.posted, notes := some "Move",
                   importId := none, createdAt := 2 }) :=
  ⟨create_transfer_spec.1 witnessStore ⟨0, some 0⟩ 2 1 _ rfl,
   create_transfer_spec.2.2.2 witnessStore ⟨0, some 0⟩ 2 1 _ (by decide) (by decide)
     rfl (by decide) (by decide)⟩

/-- C1: whenever the validation/planning stage of update_transaction
succeeds but the merged line set (all line deltas applied to the in-memory
snapshot of the entire line set) satisfies neither the transfer shape nor
the non-transfer shape, the whole update is rejected with
InvalidTransactionLines and the store is returned unchanged; moreover every
rejected update (any error) leaves the store unchanged — no partial write
ever occurs. -/
theorem update_rejects_invalid_lines :
    (∀ (st : Store) (now : PyDateTime) (b txId : Nat) (p : TransactionUpdatePayload)
        (plan : UpdatePlan),
        updateStage st now b txId p = Except.ok plan →
        isValidTransfer plan.merged = false → isValidNonTransfer plan.merged = false →
        updateTransaction st now b txId p = (st, Except.error Err.invalidTransactionLines)) ∧
    (∀ (st : Store) (now : PyDateTime) (b txId : Nat) (p : TransactionUpdatePayload)
        (e : Err) (st2 : Store),
        updateTransaction st now b txId p = (st2, Except.error e) → st2 = st) := by
  constructor
  · intro st now b txId p plan hstage h1 h2
    unfold updateTransaction
    simp only [hstage]
    rw [if_pos ⟨h1, h2⟩]
  · intro st now b txId p e st2 h
    cases hstage : updateStage st now b txId p with
    | error e2 =>
      have hred : updateTransaction st now b txId p = (st, Except.error e2) := by
        unfold updateTransaction
        simp only [hstage]
      rw [hred] at h
      injection h with h1 h2
      exact h1.symm
    | ok plan =>
      by_cases hbad : isValidTransfer plan.merged = false ∧
          isValidNonTransfer plan.merged = false
      · have hred : updateTransaction st now b txId p =
            (st, Except.error Err.invalidTransactionLines) := by
          unfold updateTransaction
          simp only [hstage]
          rw [if_pos hbad]
        rw [hred] at h
        injection h with h1 h2
        exact h1.symm
      · have hred : (updateTransaction st now b txId p).2 = Except.ok () := by
          unfold updateTransaction
          simp only [hstage]
          rw [if_neg hbad]
        rw [h] at hred
        cases hred

/-- Witness for `update_rejects_invalid_lines`: patching line 21's amount to
7 unbalances the transfer transaction 10 of the witness store (accounts stay
distinct), so the merged set fits neither shape and the update is rejected
with the store untouched. -/
theorem update_rejects_invalid_lines_witness :
    updateTransaction witnessStore ⟨0, some 0⟩ 1 10 invalidLinesPayloadW =
      (witnessStore, Except.error Err.invalidTransactionLines) :=
  update_rejects_invalid_lines.1 witnessStore ⟨0, some 0⟩ 1 10 invalidLinesPayloadW _
    rfl rfl rfl

/-- Counterexample to C6 as stated: a patch that only re-submits a value
equal to the current stored state (the notes of transaction 11) is accepted
(`ok`), not rejected with NoFieldsToUpdate — the code tests field presence,
not difference from the stored state. -/
theorem update_equal_resubmission_accepted :
    updateTransaction witnessStore ⟨0, some 0⟩ 1 11 equalNotesPayloadW =
      (witnessStore, Except.ok ()) := by
  decide

/-- C6 (amended): update_transaction fails with NoFieldsToUpdate when the
payload submits no field at all; submitting any field counts as an update
even when its value equals the stored one, and such a patch is accepted
rather than rejected. -/
theorem update_requires_some_field (st : Store) (now : PyDateTime) (b txId : Nat)
    (p : TransactionUpdatePayload) (tx : TxRow)
    (htx : getTransaction st txId = some tx) (hb : tx.budgetId = b)
    (h0 : numSetFields p = 0) :
    updateTransaction st now b txId p = (st, Except.error Err.noFieldsToUpdate) := by
  unfold updateTransaction updateStage
  simp only [htx]
  rw [if_neg (by simp [hb]), if_pos h0]

/-- Witness for `update_requires_some_field`: the empty PATCH body against
transaction 11 of the witness store. -/
theorem update_requires_some_field_witness :
    updateTransaction witnessStore ⟨0, some 0⟩ 1 11 emptyUpdatePayload =
      (witnessStore, Except.error Err.noFieldsToUpdate) :=
  update_requires_some_field witnessStore ⟨0, some 0⟩ 1 11 emptyUpdatePayload
    { id := 11, budgetId := 1, postedAt := ⟨5, some 0⟩, status := .posted,
      notes := some "Dinner", importId := none, createdAt := 1 }
    rfl rfl rfl

theorem buildHeader_import_immutable (now : PyDateTime) (tx : TxRow)
    (p : TransactionUpdatePayload) (v : Option String)
    (hposted : postedFieldOk p = true) (hstatus : statusFieldOk p = true)
    (himp : p.importId = some v)
    (hcase : v ≠ tx.importId ∨ numSetFields p = 1) :
    buildHeaderUpdates now tx p = Except.error Err.importIdImmutable := by
  have himpstep : ∀ h3 : HeaderUpdates,
      importStep tx p h3 = Except.error Err.importIdImmutable := by
    intro h3
    unfold importStep
    simp only [himp]
    by_cases hv : v = tx.importId
    · have hnum : numSetFields p = 1 := by
        rcases hcase with hne | hnum
        · exact absurd hv hne
        · exact hnum
      rw [if_neg (not_not_intro hv), if_pos hnum]
    · rw [if_pos hv]
  have hpostedStep : ∃ h1, postedStep now ⟨none, none, none⟩ p.postedAt = Except.ok h1 := by
    unfold postedStep
    cases hp : p.postedAt with
    | none => exact ⟨_, rfl⟩
    | some dOpt =>
      cases dOpt with
      | none =>
        exfalso
        rw [postedFieldOk, hp] at hposted
        cases hposted
      | some d => exact ⟨_, rfl⟩
  obtain ⟨h1, hp1⟩ := hpostedStep
  have hstatusStep : ∃ h2, statusStep h1 p.status = Except.ok h2 := by
    unfold statusStep
    cases hs : p.status with
    | none => exact ⟨_, rfl⟩
    | some sOpt =>
      cases sOpt with
      | none =>
        exfalso
        rw [statusFieldOk, hs] at hstatus
        cases hstatus
      | some s =>
        rw [statusFieldOk, hs] at hstatus
        obtain ⟨stt, hstt⟩ := Option.isSome_iff_exists.mp hstatus
        simp only [hstt]
        rw [show normalizeStatus (some s) = Except.ok stt by
          simp [normalizeStatus, hstt]]
        exact ⟨_, rfl⟩
  obtain ⟨h2, hp2⟩ := hstatusStep
  unfold buildHeaderUpdates
  rw [hp1]
  show statusStep h1 p.status >>= _ = _
  rw [hp2]
  show importStep tx p (notesStep h2 p.notes) = _
  exact himpstep _

theorem sole_import_fields (p : TransactionUpdatePayload) (v : Option String)
    (himp : p.importId = some v) (hone : numSetFields p = 1) :
    p.postedAt = none ∧ p.status = none ∧ p.notes = none ∧ p.lines = none := by
  rcases hpa : p.postedAt with _ | x1 <;> rcases hs : p.status with _ | x2 <;>
    rcases hn : p.notes with _ | x3 <;> rcases hl : p.lines with _ | x4 <;>
    simp_all [numSetFields, himp]

theorem transactions_applyLineUpdates (ds : List LineUpdateDb) :
    ∀ s : Store, (applyLineUpdatesToStore s ds).transactions = s.transactions := by
  induction ds with
  | nil => intro s; rfl
  | cons d ds ih =>
    intro s
    exact ih _

theorem map_importId_applyHeader (st : Store) (txId : Nat) (h : HeaderUpdates) :
    ((applyHeaderToStore st txId h).transactions.map (fun t => (t.id, t.importId))) =
      st.transactions.map (fun t => (t.id, t.importId)) := by
  unfold applyHeaderToStore
  rw [List.map_map]
  apply List.map_congr_left
  intro t _
  by_cases ht : t.id = txId <;> simp [ht, applyHeaderUpdates]

/-- C3: an update payload that explicitly includes import_id is rejected
with ImportIdImmutable when the submitted value differs from the stored one,
and also when it equals the stored one but is the only submitted field; and
the update path never changes any stored import_id (the map of
`(id, import_id)` over the store's transactions is invariant under
update_transaction, success or failure). -/
theorem import_id_immutable :
    (∀ (st : Store) (now : PyDateTime) (b txId : Nat) (p : TransactionUpdatePayload)
        (tx : TxRow) (v : Option String),
        getTransaction st txId = some tx → tx.budgetId = b →
        postedFieldOk p = true → statusFieldOk p = true →
        p.importId = some v → v ≠ tx.importId →
        updateTransaction st now b txId p = (st, Except.error Err.importIdImmutable)) ∧
    (∀ (st : Store) (now : PyDateTime) (b txId : Nat) (p : TransactionUpdatePayload)
        (tx : TxRow) (v : Option String),
        getTransaction st txId = some tx → tx.budgetId = b →
        p.importId = some v → v = tx.importId → numSetFields p = 1 →
        updateTransaction st now b txId p = (st, Except.error Err.importIdImmutable)) ∧
    (∀ (st : Store) (now : PyDateTime) (b txId : Nat) (p : TransactionUpdatePayload),
        ((updateTransaction st now b txId p).1.transactions.map
            (fun t => (t.id, t.importId))) =
          st.transactions.map (fun t => (t.id, t.importId))) := by
  have hnz : ∀ (p : TransactionUpdatePayload) (v : Option String),
      p.importId = some v → numSetFields p ≠ 0 := by
    intro p v himp
    simp only [numSetFields, himp, Option.isSome_some, if_true]
    omega
  refine ⟨?_, ?_, ?_⟩
  · intro st now b txId p tx v htx hb hposted hstatus himp hne
    have hbh := buildHeader_import_immutable now tx p v hposted hstatus himp (Or.inl hne)
    unfold updateTransaction updateStage
    simp only [htx]
    rw [if_neg (by simp [hb]), if_neg (hnz p v himp)]
    simp only [hbh]
  · intro st now b txId p tx v htx hb himp hv hone
    obtain ⟨hpa, hs, _, _⟩ := sole_import_fields p v himp hone
    have hposted : postedFieldOk p = true := by rw [postedFieldOk, hpa]
    have hstatus : statusFieldOk p = true := by rw [statusFieldOk, hs]
    have hbh := buildHeader_import_immutable now tx p v hposted hstatus himp (Or.inr hone)
    unfold updateTransaction updateStage
    simp only [htx]
    rw [if_neg (by simp [hb]), if_neg (hnz p v himp)]
    simp only [hbh]
  · intro st now b txId p
    cases hstage : updateStage st now b txId p with
    | error e =>
      have hred : updateTransaction st now b txId p = (st, Except.error e) := by
        unfold updateTransaction
        simp only [hstage]
      rw [hred]
    | ok plan =>
      by_cases hbad : isValidTransfer plan.merged = false ∧
          isValidNonTransfer plan.merged = false
      · have hred : updateTransaction st now b txId p =
            (st, Except.error Err.invalidTransactionLines) := by
          unfold updateTransaction
          simp only [hstage]
          rw [if_pos hbad]
        rw [hred]
      · have hred : updateTransaction st now b txId p =
            ((if plan.tagUpdates.isEmpty then
                (if plan.dbUpdates.isEmpty then
                  (if headerUpdatesEmpty plan.header then st
                   else applyHeaderToStore st txId plan.header)
                 else applyLineUpdatesToStore
                  (if headerUpdatesEmpty plan.header then st
                   else applyHeaderToStore st txId plan.header) plan.dbUpdates)
              else applyTagUpdatesToStore
                (if plan.dbUpdates.isEmpty then
                  (if headerUpdatesEmpty plan.header then st
                   else applyHeaderToStore st txId plan.header)
                 else applyLineUpdatesToStore
                  (if headerUpdatesEmpty plan.header then st
                   else applyHeaderToStore st txId plan.header) plan.dbUpdates)
                plan.tagUpdates), Except.ok ()) := by
          unfold updateTransaction
          simp only [hstage]
          rw [if_neg hbad]
        rw [hred]
        by_cases h1 : headerUpdatesEmpty plan.header = true <;>
          by_cases h2 : plan.dbUpdates.isEmpty = true <;>
          by_cases h3 : plan.tagUpdates.isEmpty = true <;>
          simp [h1, h2, h3, applyTagUpdatesToStore, transactions_applyLineUpdates,
            map_importId_applyHeader]

/-- Witness for `import_id_immutable`: changing transaction 11's import id,
and re-submitting transaction 10's unchanged import id as the sole field,
are both rejected. -/
theorem import_id_immutable_witness :
    updateTransaction witnessStore ⟨0, some 0⟩ 1 11 importChangePayloadW =
      (witnessStore, Except.error Err.importIdImmutable) ∧
    updateTransaction witnessStore ⟨0, some 0⟩ 1 10 importSolePayloadW =
      (witnessStore, Except.error Err.importIdImmutable) :=
  ⟨import_id_immutable.1 witnessStore ⟨0, some 0⟩ 1 11 importChangePayloadW
      { id := 11, budgetId := 1, postedAt := ⟨5, some 0⟩, status := .posted,
        notes := some "Dinner", importId := none, createdAt := 1 }
      (some "other") rfl rfl rfl rfl rfl (by decide),
   import_id_immutable.2.1 witnessStore ⟨0, some 0⟩ 1 10 importSolePayloadW
      { id := 10, budgetId := 1, postedAt := ⟨0, some 0⟩, status := .posted,
        notes := none, importId := some "imp-10", createdAt := 0 }
      (some "imp-10") rfl rfl rfl rfl rfl⟩

theorem stepAccount_db_amount (st : Store) (b : Nat) (s s1 : LineSnapshot × LineUpdateDb)
    (f : Option (Option Nat)) (h : stepAccount st b s f = Except.ok s1) :
    s1.2.amountMinor = s.2.amountMinor := by
  unfold stepAccount at h
  rcases f with _ | g
  · cases h
    rfl
  · rcases g with _ | a
    · cases h
    · dsimp only at h
      by_cases hok : accountOk st b a = true
      · rw [if_pos hok] at h
        cases h
        rfl
      · rw [if_neg hok] at h
        cases h

theorem stepCategory_db_amount (st : Store) (b : Nat) (s s1 : LineSnapshot × LineUpdateDb)
    (f : Option (Option Nat)) (h : stepCategory st b s f = Except.ok s1) :
    s1.2.amountMinor = s.2.amountMinor := by
  unfold stepCategory at h
  rcases f with _ | c
  · cases h
    rfl
  · dsimp only at h
    by_cases hbadc : c.any (fun cid => !categoryOk st b cid) = true
    · rw [if_pos hbadc] at h
      cases h
    · rw [if_neg hbadc] at h
      cases h
      rfl

theorem stepPayee_db_amount (st : Store) (b : Nat) (s s1 : LineSnapshot × LineUpdateDb)
    (f : Option (Option Nat)) (h : stepPayee st b s f = Except.ok s1) :
    s1.2.amountMinor = s.2.amountMinor := by
  unfold stepPayee at h
  rcases f with _ | q
  · cases h
    rfl
  · dsimp only at h
    by_cases hbadq : q.any (fun qid => !payeeOk st b qid) = true
    · rw [if_pos hbadq] at h
      cases h
    · rw [if_neg hbadq] at h
      cases h
      rfl

theorem stepAmount_facts (s s4 : LineSnapshot × LineUpdateDb) (f : Option (Option Int))
    (h : stepAmount s f = Except.ok s4) :
    (f ≠ some none ∧ ∀ a, f = some (some a) → a ≠ 0) ∧
      (s4.2.amountMinor = s.2.amountMinor ∨
        ∃ a, a ≠ 0 ∧ s4.2.amountMinor = some a) := by
  unfold stepAmount at h
  rcases f with _ | g
  · cases h
    exact ⟨⟨by simp, by simp⟩, Or.inl rfl⟩
  · rcases g with _ | a
    · cases h
    · dsimp only at h
      by_cases hz : a = 0
      · rw [if_pos hz] at h
        cases h
      · rw [if_neg hz] at h
        cases h
        refine ⟨⟨by simp, ?_⟩, Or.inr ⟨a, hz, rfl⟩⟩
        intro a2 ha2
        injection ha2 with ha2
        injection ha2 with ha2
        rw [← ha2]
        exact hz

theorem stepMemo_db_amount (s : LineSnapshot × LineUpdateDb) (f : Option (Option String)) :
    (stepMemo s f).2.amountMinor = s.2.amountMinor := by
  unfold stepMemo
  rcases f with _ | m
  · rfl
  · rfl

theorem applyLinePatch_amount (st : Store) (b : Nat) (snap : LineSnapshot)
    (u : TransactionLineUpdatePayload) (r : LineSnapshot × LineUpdateDb × Option (List Nat))
    (h : applyLinePatch st b snap u = Except.ok r) :
    (u.amountMinor ≠ some none ∧ ∀ a, u.amountMinor = some (some a) → a ≠ 0) ∧
      (∀ a, r.2.1.amountMinor = some a → a ≠ 0) := by
  unfold applyLinePatch at h
  dsimp only at h
  cases h1 : stepAccount st b (snap,
      { lineId := u.lineId, accountId := none, categoryId := none,
        payeeId := none, amountMinor := none, memo := none }) u.accountId with
  | error e => rw [h1] at h; cases h
  | ok s1 =>
    rw [h1] at h
    dsimp only at h
    cases h2 : stepCategory st b s1 u.categoryId with
    | error e => rw [h2] at h; cases h
    | ok s2 =>
      rw [h2] at h
      dsimp only at h
      cases h3 : stepPayee st b s2 u.payeeId with
      | error e => rw [h3] at h; cases h
      | ok s3 =>
        rw [h3] at h
        dsimp only at h
        cases h4 : stepAmount s3 u.amountMinor with
        | error e => rw [h4] at h; cases h
        | ok s4 =>
          rw [h4] at h
          dsimp only at h
          have hdb0 : s3.2.amountMinor = none := by
            rw [stepPayee_db_amount st b s2 s3 u.payeeId h3,
              stepCategory_db_amount st b s1 s2 u.categoryId h2,
              stepAccount_db_amount st b _ s1 u.accountId h1]
          obtain ⟨hfacts, hdb⟩ := stepAmount_facts s3 s4 u.amountMinor h4
          have hrdb : r.2.1.amountMinor = s4.2.amountMinor := by
            rcases ht : u.tagIds with _ | t
            · rw [ht] at h
              cases h
              exact stepMemo_db_amount s4 u.memo
            · rw [ht] at h
              cases h
              exact stepMemo_db_amount s4 u.memo
          refine ⟨hfacts, ?_⟩
          intro a ha
          rw [hrdb] at ha
          rcases hdb with heq | ⟨a2, ha2, heq2⟩
          · rw [heq, hdb0] at ha
            cases ha
          · rw [heq2] at ha
            injection ha with ha
            rw [← ha]
            exact ha2

theorem processLinePatches_amounts (st : Store) (b : Nat) :
    ∀ (us : List TransactionLineUpdatePayload) (seen : List Nat) (acc plan : LinePlan),
      processLinePatches st b us seen acc = Except.ok plan →
      ∀ u ∈ us, u.amountMinor ≠ some none ∧
        ∀ a, u.amountMinor = some (some a) → a ≠ 0 := by
  intro us
  induction us with
  | nil => intro seen acc plan _ u hu; cases hu
  | cons u us ih =>
    intro seen acc plan h
    rw [processLinePatches] at h
    by_cases hseen : u.lineId ∈ seen
    · rw [if_pos hseen] at h
      cases h
    · rw [if_neg hseen] at h
      cases hfind : findSnap acc.snapshots u.lineId with
      | none => rw [hfind] at h; cases h
      | some snap =>
        rw [hfind] at h
        dsimp only at h
        by_cases hfields : lineUpdateHasFields u = false
        · rw [if_pos hfields] at h
          intro w hw
          rcases List.mem_cons.mp hw with rfl | hw2
          · have ham : w.amountMinor = none := by
              unfold lineUpdateHasFields at hfields
              simp only [Bool.or_eq_false_iff] at hfields
              exact Option.not_isSome_iff_eq_none.mp
                (by simp [hfields.1.1.2])
            rw [ham]
            exact ⟨by simp, by simp⟩
          · exact ih _ _ _ h w hw2
        · rw [if_neg hfields] at h
          cases hap : applyLinePatch st b snap u with
          | error e => rw [hap] at h; cases h
          | ok r =>
            obtain ⟨snapNew, db, tagsOpt⟩ := r
            rw [hap] at h
            dsimp only at h
            intro w hw
            rcases List.mem_cons.mp hw with rfl | hw2
            · exact (applyLinePatch_amount st b snap w _ hap).1
            · exact ih _ _ _ h w hw2

theorem processLinePatches_db (st : Store) (b : Nat) :
    ∀ (us : List TransactionLineUpdatePayload) (seen : List Nat) (acc plan : LinePlan),
      processLinePatches st b us seen acc = Except.ok plan →
      (∀ d ∈ acc.dbUpdates, ∀ a, d.amountMinor = some a → a ≠ 0) →
      ∀ d ∈ plan.dbUpdates, ∀ a, d.amountMinor = some a → a ≠ 0 := by
  intro us
  induction us with
  | nil =>
    intro seen acc plan h hacc
    rw [processLinePatches] at h
    cases h
    exact hacc
  | cons u us ih =>
    intro seen acc plan h hacc
    rw [processLinePatches] at h
    by_cases hseen : u.lineId ∈ seen
    · rw [if_pos hseen] at h
      cases h
    · rw [if_neg hseen] at h
      cases hfind : findSnap acc.snapshots u.lineId with
      | none => rw [hfind] at h; cases h
      | some snap =>
        rw [hfind] at h
        dsimp only at h
        by_cases hfields : lineUpdateHasFields u = false
        · rw [if_pos hfields] at h
          exact ih _ _ _ h hacc
        · rw [if_neg hfields] at h
          cases hap : applyLinePatch st b snap u with
          | error e => rw [hap] at h; cases h
          | ok r =>
            obtain ⟨snapNew, db, tagsOpt⟩ := r
            rw [hap] at h
            dsimp only at h
            refine ih _ _ _ h ?_
            intro d hd a ha
            by_cases hdbf : lineUpdateDbHasFields db = true
            · rw [if_pos hdbf] at hd
              rcases List.mem_append.mp hd with hd1 | hd2
              · exact hacc d hd1 a ha
              · have hdb : d = db := by simpa using hd2
                subst hdb
                exact (applyLinePatch_amount st b snap u _ hap).2 a ha
            · rw [if_neg hdbf] at hd
              exact hacc d hd a ha

theorem updateStage_ok_inv (st : Store) (now : PyDateTime) (b txId : Nat)
    (p : TransactionUpdatePayload) (plan : UpdatePlan)
    (h : updateStage st now b txId p = Except.ok plan) :
    ∃ (tx : TxRow) (header : HeaderUpdates)
      (lp : Option (List TransactionLineUpdatePayload)) (lplan : LinePlan),
      getTransaction st txId = some tx ∧ tx.budgetId = b ∧
      buildHeaderUpdates now tx p = Except.ok header ∧
      extractLinePayload p = Except.ok lp ∧
      processLinePatches st b (lp.getD []) [] ⟨snapshotsOf st txId, [], [], []⟩ =
        Except.ok lplan ∧
      plan = ⟨header, lplan.dbUpdates, lplan.tagUpdates, lplan.snapshots⟩ := by
  unfold updateStage at h
  cases htx : getTransaction st txId with
  | none => rw [htx] at h; cases h
  | some tx =>
    rw [htx] at h
    dsimp only at h
    by_cases hb : tx.budgetId ≠ b
    · rw [if_pos hb] at h; cases h
    · rw [if_neg hb] at h
      by_cases h0 : numSetFields p = 0
      · rw [if_pos h0] at h; cases h
      · rw [if_neg h0] at h
        cases hbh : buildHeaderUpdates now tx p with
        | error e => rw [hbh] at h; cases h
        | ok header =>
          rw [hbh] at h
          dsimp only at h
          cases hex : extractLinePayload p with
          | error e => rw [hex] at h; cases h
          | ok lp =>
            rw [hex] at h
            dsimp only at h
            by_cases hno : (headerUpdatesEmpty header && lp.isNone) = true
            · rw [if_pos hno] at h; cases h
            · rw [if_neg hno] at h
              cases hpr : processLinePatches st b (lp.getD []) []
                  ⟨snapshotsOf st txId, [], [], []⟩ with
              | error e => rw [hpr] at h; cases h
              | ok lplan =>
                rw [hpr] at h
                dsimp only at h
                by_cases hno2 : (headerUpdatesEmpty header &&
                    lplan.dbUpdates.isEmpty && lplan.tagUpdates.isEmpty) = true
                · rw [if_pos hno2] at h; cases h
                · rw [if_neg hno2] at h
                  by_cases hte : lplan.tagIdsToValidate.isEmpty = true
                  · rw [if_pos hte] at h
                    cases h
                    exact ⟨tx, header, lp, lplan, rfl, not_not.mp hb, hbh, rfl, hpr, rfl⟩
                  · rw [if_neg hte] at h
                    cases hrt : requireTags st b lplan.tagIdsToValidate with
                    | error e => rw [hrt] at h; cases h
                    | ok deduped =>
                      rw [hrt] at h
                      cases h
                      exact ⟨tx, header, lp, lplan, rfl, not_not.mp hb, hbh, rfl, hpr, rfl⟩

theorem updateTransaction_error_unchanged (st : Store) (now : PyDateTime) (b txId : Nat)
    (p : TransactionUpdatePayload) (e : Err) (st2 : Store)
    (h : updateTransaction st now b txId p = (st2, Except.error e)) : st2 = st := by
  cases hstage : updateStage st now b txId p with
  | error e2 =>
    have hred : updateTransaction st now b txId p = (st, Except.error e2) := by
      unfold updateTransaction
      simp only [hstage]
    rw [hred] at h
    injection h with h1 h2
    exact h1.symm
  | ok plan =>
    by_cases hbad : isValidTransfer plan.merged = false ∧
        isValidNonTransfer plan.merged = false
    · have hred : updateTransaction st now b txId p =
          (st, Except.error Err.invalidTransactionLines) := by
        unfold updateTransaction
        simp only [hstage]
        rw [if_pos hbad]
      rw [hred] at h
      injection h with h1 h2
      exact h1.symm
    · have hred : (updateTransaction st now b txId p).2 = Except.ok () := by
        unfold updateTransaction
        simp only [hstage]
        rw [if_neg hbad]
      rw [h] at hred
      cases hred

theorem updateTransaction_ok_lines (st : Store) (now : PyDateTime) (b txId : Nat)
    (p : TransactionUpdatePayload) (st2 : Store)
    (h : updateTransaction st now b txId p = (st2, Except.ok ())) :
    ∃ plan : UpdatePlan, updateStage st now b txId p = Except.ok plan ∧
      (st2.lines = st.lines ∨
        ∃ s1 : Store, s1.lines = st.lines ∧
          st2.lines = (applyLineUpdatesToStore s1 plan.dbUpdates).lines) := by
  cases hstage : updateStage st now b txId p with
  | error e =>
    exfalso
    have hred : updateTransaction st now b txId p = (st, Except.error e) := by
      unfold updateTransaction
      simp only [hstage]
    rw [hred] at h
    injection h with h1 h2
    cases h2
  | ok plan =>
    refine ⟨plan, rfl, ?_⟩
    by_cases hbad : isValidTransfer plan.merged = false ∧
        isValidNonTransfer plan.merged = false
    · exfalso
      have hred : updateTransaction st now b txId p =
          (st, Except.error Err.invalidTransactionLines) := by
        unfold updateTransaction
        simp only [hstage]
        rw [if_pos hbad]
      rw [hred] at h
      injection h with h1 h2
      cases h2
    · have hred : updateTransaction st now b txId p =
          ((if plan.tagUpdates.isEmpty then
              (if plan.dbUpdates.isEmpty then
                (if headerUpdatesEmpty plan.header then st
                 else applyHeaderToStore st txId plan.header)
               else applyLineUpdatesToStore
                (if headerUpdatesEmpty plan.header then st
                 else applyHeaderToStore st txId plan.header) plan.dbUpdates)
            else applyTagUpdatesToStore
              (if plan.dbUpdates.isEmpty then
                (if headerUpdatesEmpty plan.header then st
                 else applyHeaderToStore st txId plan.header)
               else applyLineUpdatesToStore
                (if headerUpdatesEmpty plan.header then st
                 else applyHeaderToStore st txId plan.header) plan.dbUpdates)
              plan.tagUpdates), Except.ok ()) := by
        unfold updateTransaction
        simp only [hstage]
        rw [if_neg hbad]
      rw [hred] at h
      injection h with hst h2
      by_cases hdb : plan.dbUpdates.isEmpty = true
      · left
        rw [← hst]
        by_cases h1 : headerUpdatesEmpty plan.header = true <;>
          by_cases h3 : plan.tagUpdates.isEmpty = true <;>
          simp [h1, hdb, h3, applyTagUpdatesToStore, applyHeaderToStore]
      · right
        refine ⟨(if headerUpdatesEmpty plan.header then st
            else applyHeaderToStore st txId plan.header), ?_, ?_⟩
        · by_cases h1 : headerUpdatesEmpty plan.header = true <;>
            simp [h1, applyHeaderToStore]
        · rw [← hst]
          by_cases h1 : headerUpdatesEmpty plan.header = true <;>
            by_cases h3 : plan.tagUpdates.isEmpty = true <;>
            simp [h1, hdb, h3, applyTagUpdatesToStore]

theorem createTransaction_ok_inv (st : Store) (now : PyDateTime) (c : Int) (b : Nat)
    (p : TransactionCreatePayload) (st2 : Store) (tx : TxRow)
    (h : createTransaction st now c b p = (st2, Except.ok tx)) :
    p.line.amountMinor ≠ 0 ∧ tx.importId = p.importId ∧ tx.budgetId = b ∧
    tx.id = st.nextId ∧
    st2.transactions = st.transactions ++ [tx] ∧
    st2.lines = st.lines ++
      [{ id := st.nextId + 1, transactionId := st.nextId,
         accountId := p.line.accountId, categoryId := p.line.categoryId,
         payeeId := p.line.payeeId, amountMinor := p.line.amountMinor,
         memo := p.line.memo }] := by
  unfold createTransaction at h
  by_cases h1 : p.line.amountMinor = 0
  · rw [if_pos h1] at h
    injection h with ha hb
    cases hb
  · rw [if_neg h1] at h
    by_cases h2 : accountOk st b p.line.accountId = false
    · rw [if_pos h2] at h
      injection h with ha hb
      cases hb
    · rw [if_neg h2] at h
      by_cases h3 : (p.line.categoryId.any (fun c2 => !categoryOk st b c2)) = true
      · rw [if_pos h3] at h
        injection h with ha hb
        cases hb
      · rw [if_neg h3] at h
        by_cases h4 : (p.line.payeeId.any (fun q => !payeeOk st b q)) = true
        · rw [if_pos h4] at h
          injection h with ha hb
          cases hb
        · rw [if_neg h4] at h
          cases hrt : requireTags st b (p.line.tagIds.getD []) with
          | error e =>
            rw [hrt] at h
            injection h with ha hb
            cases hb
          | ok tagIds =>
            rw [hrt] at h
            dsimp only at h
            cases hns : normalizeStatus p.status with
            | error e =>
              rw [hns] at h
              injection h with ha hb
              cases hb
            | ok stt =>
              rw [hns] at h
              dsimp only at h
              injection h with hst hok
              injection hok with htx
              subst htx
              subst hst
              exact ⟨h1, rfl, rfl, rfl, rfl, rfl⟩

theorem applyLineUpdates_amounts :
    ∀ (ds : List LineUpdateDb),
      (∀ d ∈ ds, ∀ a, d.amountMinor = some a → a ≠ 0) →
      ∀ (s : Store) (lr : LineRow), lr ∈ (applyLineUpdatesToStore s ds).lines →
        (∃ lr0 ∈ s.lines, lr0.id = lr.id ∧ lr0.amountMinor = lr.amountMinor) ∨
          lr.amountMinor ≠ 0 := by
  intro ds
  induction ds with
  | nil =>
    intro _ s lr hlr
    exact Or.inl ⟨lr, hlr, rfl, rfl⟩
  | cons d ds ih =>
    intro hds s lr hlr
    have hds2 : ∀ d2 ∈ ds, ∀ a, d2.amountMinor = some a → a ≠ 0 :=
      fun d2 hd2 => hds d2 (List.mem_cons_of_mem _ hd2)
    have hlr2 : lr ∈ (applyLineUpdatesToStore { s with lines := s.lines.map (fun l => if l.id == d.lineId then applyLineDb d l else l) } ds).lines := hlr
    rcases ih hds2 _ lr hlr2 with ⟨lr0, hmem, hid, hamt⟩ | hnz
    · have hmem2 : lr0 ∈ s.lines.map (fun l => if l.id == d.lineId then applyLineDb d l else l) := hmem
      obtain ⟨lr1, hmem1, hg⟩ := List.mem_map.mp hmem2
      by_cases hidm : (lr1.id == d.lineId) = true
      · rw [if_pos hidm] at hg
        rcases ha : d.amountMinor with _ | a
        · left
          refine ⟨lr1, hmem1, ?_, ?_⟩
          · rw [← hg] at hid
            exact hid
          · have hpres : (applyLineDb d lr1).amountMinor = lr1.amountMinor := by
              simp [applyLineDb, ha]
            rw [← hg, hpres] at hamt
            exact hamt
        · right
          have hnz2 : a ≠ 0 := hds d (List.mem_cons_self d ds) a ha
          have hset : (applyLineDb d lr1).amountMinor = a := by
            simp [applyLineDb, ha]
          rw [← hg, hset] at hamt
          rw [← hamt]
          exact hnz2
      · rw [if_neg hidm] at hg
        left
        refine ⟨lr1, hmem1, ?_, ?_⟩
        · rw [hg]
          exact hid
        · rw [hg]
          exact hamt
    · exact Or.inr hnz

/-- C7: zero line amounts are always rejected and never persisted:
create_transaction rejects a zero-amount line; update_transaction rejects
any line patch setting amount_minor to 0 or to null (the whole call errors
with the store unchanged); a successful create only adds lines with non-zero
amounts; and a successful update leaves every stored line either with its
previous amount or with a non-zero one. -/
theorem nonzero_amounts :
    (∀ (st : Store) (now : PyDateTime) (c : Int) (b : Nat) (p : TransactionCreatePayload),
        p.line.amountMinor = 0 →
        createTransaction st now c b p = (st, Except.error Err.amountMustBeNonZero)) ∧
    (∀ (st : Store) (now : PyDateTime) (b txId : Nat) (p : TransactionUpdatePayload)
        (l : List TransactionLineUpdatePayload) (u : TransactionLineUpdatePayload),
        p.lines = some (some l) → u ∈ l →
        (u.amountMinor = some none ∨ u.amountMinor = some (some 0)) →
        ∃ e, updateTransaction st now b txId p = (st, Except.error e)) ∧
    (∀ (st : Store) (now : PyDateTime) (c : Int) (b : Nat) (p : TransactionCreatePayload)
        (st2 : Store) (tx : TxRow),
        createTransaction st now c b p = (st2, Except.ok tx) →
        ∀ lr ∈ st2.lines, lr ∈ st.lines ∨ lr.amountMinor ≠ 0) ∧
    (∀ (st : Store) (now : PyDateTime) (b txId : Nat) (p : TransactionUpdatePayload)
        (st2 : Store),
        updateTransaction st now b txId p = (st2, Except.ok ()) →
        ∀ lr ∈ st2.lines,
          (∃ lr0 ∈ st.lines, lr0.id = lr.id ∧ lr0.amountMinor = lr.amountMinor) ∨
            lr.amountMinor ≠ 0) := by
  refine ⟨?_, ?_, ?_, ?_⟩
  · intro st now c b p h
    unfold createTransaction
    rw [if_pos h]
  · intro st now b txId p l u hl hu hbad
    rcases hres : updateTransaction st now b txId p with ⟨st2, r⟩
    cases r with
    | error e =>
      have hunch := updateTransaction_error_unchanged st now b txId p e st2 hres
      exact ⟨e, by rw [hunch]⟩
    | ok uu =>
      exfalso
      cases uu
      obtain ⟨plan, hstage, _⟩ := updateTransaction_ok_lines st now b txId p st2 hres
      obtain ⟨tx, header, lp, lplan, _, _, _, hex, hpr, _⟩ :=
        updateStage_ok_inv st now b txId p plan hstage
      cases l with
      | nil => exact absurd hu (List.not_mem_nil u)
      | cons x xs =>
        have hlp : lp = some (x :: xs) := by
          unfold extractLinePayload at hex
          rw [hl] at hex
          injection hex with hex
          exact hex.symm
        rw [hlp] at hpr
        have hfacts := processLinePatches_amounts st b (x :: xs) [] _ _ hpr u hu
        rcases hbad with hb1 | hb2
        · exact hfacts.1 hb1
        · exact (hfacts.2 0 hb2) rfl
  · intro st now c b p st2 tx h lr hlr
    obtain ⟨hnz, _, _, _, _, hlines⟩ := createTransaction_ok_inv st now c b p st2 tx h
    rw [hlines] at hlr
    rcases List.mem_append.mp hlr with hin | hnew
    · exact Or.inl hin
    · right
      rw [List.mem_singleton] at hnew
      rw [hnew]
      exact hnz
  · intro st now b txId p st2 h lr hlr
    obtain ⟨plan, hstage, hcase⟩ := updateTransaction_ok_lines st now b txId p st2 h
    rcases hcase with heq | ⟨s1, hs1, heq⟩
    · rw [heq] at hlr
      exact Or.inl ⟨lr, hlr, rfl, rfl⟩
    · rw [heq] at hlr
      obtain ⟨tx, header, lp, lplan, _, _, _, _, hpr, hplaneq⟩ :=
        updateStage_ok_inv st now b txId p plan hstage
      have hdb : ∀ d ∈ plan.dbUpdates, ∀ a, d.amountMinor = some a → a ≠ 0 := by
        rw [hplaneq]
        exact processLinePatches_db st b _ [] _ _ hpr (by intro d hd; cases hd)
      rcases applyLineUpdates_amounts plan.dbUpdates hdb s1 lr hlr with
        ⟨lr0, hm, hid, ham⟩ | hnz
      · rw [hs1] at hm
        exact Or.inl ⟨lr0, hm, hid, ham⟩
      · exact Or.inr hnz

/-- Witness for `nonzero_amounts`: creating a transaction whose line has
amount 0 on the witness store is rejected with the store unchanged. -/
theorem nonzero_amounts_witness :
    createTransaction witnessStore ⟨0, some 0⟩ 3 1 zeroAmountCreateW =
      (witnessStore, Except.error Err.amountMustBeNonZero) :=
  nonzero_amounts.1 witnessStore ⟨0, some 0⟩ 3 1 zeroAmountCreateW rfl

theorem importIdExists_mono (st st2 : Store) (b : Nat) (i : String)
    (rest : List TxRow) (h : importIdExists st b i = true)
    (h2 : st2.transactions = st.transactions ++ rest) :
    importIdExists st2 b i = true := by
  unfold importIdExists at h ⊢
  rw [h2, List.any_append, h, Bool.true_or]

theorem processDrafts_append (now : PyDateTime) (c : Int) (b : Nat) :
    ∀ (ds : List BulkDraft) (st : Store) (cr ex : Nat) (st2 : Store) (s : ImportSummary),
      processDrafts now c b st cr ex ds = Except.ok (st2, s) →
      ∃ rest, st2.transactions = st.transactions ++ rest := by
  intro ds
  induction ds with
  | nil =>
    intro st cr ex st2 s h
    rw [processDrafts] at h
    cases h
    exact ⟨[], (List.append_nil _).symm⟩
  | cons d ds ih =>
    intro st cr ex st2 s h
    rw [processDrafts] at h
    by_cases hex : importIdExists st b d.importId = true
    · rw [if_pos hex] at h
      exact ih st cr (ex + 1) st2 s h
    · rw [if_neg hex] at h
      cases hc : createTransaction st now c b (draftPayload d) with
      | mk stNew r =>
        rw [hc] at h
        cases r with
        | error e =>
          dsimp only at h
          cases h
        | ok tx =>
          dsimp only at h
          obtain ⟨rest, hrest⟩ := ih stNew (cr + 1) ex st2 s h
          have hnew := createTransaction_ok_inv st now c b (draftPayload d) stNew tx hc
          refine ⟨tx :: rest, ?_⟩
          rw [hrest, hnew.2.2.2.2.1, List.append_assoc]
          rfl

theorem processDrafts_all_exist (now : PyDateTime) (c : Int) (b : Nat) :
    ∀ (ds : List BulkDraft) (st : Store) (cr ex : Nat) (st2 : Store) (s : ImportSummary),
      processDrafts now c b st cr ex ds = Except.ok (st2, s) →
      ∀ d ∈ ds, importIdExists st2 b d.importId = true := by
  intro ds
  induction ds with
  | nil =>
    intro st cr ex st2 s h d hd
    cases hd
  | cons d ds ih =>
    intro st cr ex st2 s h w hw
    rw [processDrafts] at h
    by_cases hex : importIdExists st b d.importId = true
    · rw [if_pos hex] at h
      rcases List.mem_cons.mp hw with rfl | hw2
      · obtain ⟨rest, hrest⟩ := processDrafts_append now c b ds st cr (ex + 1) st2 s h
        exact importIdExists_mono st st2 b w.importId rest hex hrest
      · exact ih st cr (ex + 1) st2 s h w hw2
    · rw [if_neg hex] at h
      cases hc : createTransaction st now c b (draftPayload d) with
      | mk stNew r =>
        rw [hc] at h
        cases r with
        | error e =>
          dsimp only at h
          cases h
        | ok tx =>
          dsimp only at h
          have hnew := createTransaction_ok_inv st now c b (draftPayload d) stNew tx hc
          rcases List.mem_cons.mp hw with rfl | hw2
          · have hexNew : importIdExists stNew b w.importId = true := by
              unfold importIdExists
              rw [hnew.2.2.2.2.1, List.any_append]
              have : (TxRow.budgetId tx == b && TxRow.importId tx == some w.importId) = true := by
                rw [hnew.2.2.1]
                have himp : tx.importId = some w.importId := hnew.2.1
                rw [himp]
                simp
              simp [this]
            obtain ⟨rest, hrest⟩ := processDrafts_append now c b ds stNew (cr + 1) ex st2 s h
            exact importIdExists_mono stNew st2 b w.importId rest hexNew hrest
          · exact ih stNew (cr + 1) ex st2 s h w hw2

theorem processDrafts_all_skip (now : PyDateTime) (c : Int) (b : Nat) :
    ∀ (ds : List BulkDraft) (st : Store) (cr ex : Nat),
      (∀ d ∈ ds, importIdExists st b d.importId = true) →
      processDrafts now c b st cr ex ds = Except.ok (st, ⟨cr, ex + ds.length⟩) := by
  intro ds
  induction ds with
  | nil =>
    intro st cr ex _
    rw [processDrafts]
    simp
  | cons d ds ih =>
    intro st cr ex hall
    rw [processDrafts, if_pos (hall d (List.mem_cons_self d ds))]
    rw [ih st cr (ex + 1) (fun w hw => hall w (List.mem_cons_of_mem d hw))]
    have : ex + 1 + ds.length = ex + (d :: ds).length := by
      simp
      omega
    rw [this]

theorem duplicateIndices_nil (drafts : List BulkDraft)
    (h : (drafts.map (fun d => d.importId)).Nodup) : duplicateIndices drafts = [] := by
  unfold duplicateIndices
  dsimp only
  apply List.filter_eq_nil_iff.mpr
  intro i hi
  have hlen : i < (drafts.map (fun d => d.importId)).length := by
    simpa using List.mem_range.mp hi
  cases hx : (drafts.map (fun d => d.importId))[i]? with
  | none => simp [hx]
  | some x =>
    have hmem : x ∈ drafts.map (fun d => d.importId) := List.getElem?_mem hx
    have hcount := List.count_eq_one_of_mem h hmem
    simp [hx, hcount]

/-- C4: bulk import is idempotent on import_id: a draft whose import_id
already exists in the budget is skipped and counted as existing; and
re-submitting a whole successfully imported batch (no intra-batch
duplicates) in a second call creates no new row — the store is unchanged and
the summary counts every draft as existing, none as created. -/
theorem bulk_import_idempotent :
    (∀ (now : PyDateTime) (c : Int) (b : Nat) (st : Store) (created existing : Nat)
        (d : BulkDraft) (ds : List BulkDraft),
        importIdExists st b d.importId = true →
        processDrafts now c b st created existing (d :: ds) =
          processDrafts now c b st created (existing + 1) ds) ∧
    (∀ (st : Store) (now : PyDateTime) (c : Int) (b : Nat) (drafts : List BulkDraft)
        (st1 : Store) (s1 : ImportSummary) (now2 : PyDateTime) (c2 : Int),
        (drafts.map (fun d => d.importId)).Nodup →
        bulkImport st now c b drafts = (st1, Except.ok s1) →
        bulkImport st1 now2 c2 b drafts = (st1, Except.ok ⟨0, drafts.length⟩)) := by
  constructor
  · intro now c b st created existing d ds h
    rw [processDrafts, if_pos h]
  · intro st now c b drafts st1 s1 now2 c2 hnodup hfirst
    have hdup := duplicateIndices_nil drafts hnodup
    unfold bulkImport at hfirst
    rw [hdup] at hfirst
    rw [if_neg (by simp)] at hfirst
    have hall : ∀ d ∈ drafts, importIdExists st1 b d.importId = true := by
      cases hpd : processDrafts now c b st 0 0 drafts with
      | error e =>
        rw [hpd] at hfirst
        dsimp only at hfirst
        injection hfirst with h1 h2
        cases h2
      | ok pr =>
        obtain ⟨stx, s⟩ := pr
        rw [hpd] at hfirst
        dsimp only at hfirst
        injection hfirst with h1 h2
        rw [← h1]
        exact processDrafts_all_exist now c b drafts st 0 0 stx s hpd
    unfold bulkImport
    rw [hdup]
    rw [if_neg (by simp)]
    rw [processDrafts_all_skip now2 c2 b drafts st1 0 0 hall]
    dsimp only
    rw [Nat.zero_add]

/-- Witness for `bulk_import_idempotent`: importing `draftsW` into the
witness store creates both rows; importing the same batch again against the
resulting store changes nothing and reports 0 created / 2 existing. -/
theorem bulk_import_idempotent_witness :
    bulkImport (bulkImport witnessStore ⟨0, some 0⟩ 4 1 draftsW).1 ⟨9, some 0⟩ 5 1
        draftsW =
      ((bulkImport witnessStore ⟨0, some 0⟩ 4 1 draftsW).1, Except.ok ⟨0, 2⟩) :=
  bulk_import_idempotent.2 witnessStore ⟨0, some 0⟩ 4 1 draftsW
    (bulkImport witnessStore ⟨0, some 0⟩ 4 1 draftsW).1 ⟨2, 0⟩ ⟨9, some 0⟩ 5
    (by decide) rfl
